import Mathlib

/-!
Verification of the orchestration / provenance / audit core of the
`spec2code-naive` repository against its natural-language specification.

The Python source is shallowly embedded: dictionaries become association
lists, JSON payloads become the inductive `JValue`, floats produced by the
audit arithmetic become rationals, and filesystem state becomes explicit
association lists from paths to documents.  Every definition mirrors the
corresponding Python function (named after it where Lean's lexical rules
allow).
-/

namespace Spec2Code

/-! ## Character/string utilities mirroring Python primitives -/

/-- Byte-wise (code-point) three-way comparison of character lists, mirroring
Python's lexicographic string comparison used by `sorted(...)`. -/
def cmpChars : List Char → List Char → Ordering
  | [], [] => .eq
  | [], _ :: _ => .lt
  | _ :: _, [] => .gt
  | a :: as, b :: bs =>
    if a.toNat < b.toNat then .lt
    else if b.toNat < a.toNat then .gt
    else cmpChars as bs

/-- Boolean string order `s ≤ t` by code points (Python string ordering). -/
def strLeB (s t : String) : Bool :=
  match cmpChars s.data t.data with
  | .gt => false
  | _ => true

/-- Propositional string order, for use with `List.insertionSort`. -/
def strLe (s t : String) : Prop := strLeB s t = true

instance : DecidableRel strLe := fun s t => instDecidableEqBool (strLeB s t) true

/-- Does `needle` occur at the start of `hay`? (List-of-chars level.) -/
def startsWithChars : List Char → List Char → Bool
  | [], _ => true
  | _ :: _, [] => false
  | a :: as, b :: bs => a == b && startsWithChars as bs

/-- Does `needle` occur contiguously anywhere inside `hay`?  Mirrors Python's
`needle in hay` on strings (the empty needle always occurs). -/
def containsChars (hay needle : List Char) : Bool :=
  startsWithChars needle hay ||
    match hay with
    | [] => false
    | _ :: t => containsChars t needle

/-- Python `needle in hay` on strings. -/
def strContains (hay needle : String) : Bool := containsChars hay.data needle.data

/-- Python `str.upper()` (ASCII-faithful; the repository only uppercases
ASCII marker strings). -/
def upperStr (s : String) : String := String.mk (s.data.map Char.toUpper)

/-- Python `str.lower()` (ASCII-faithful). -/
def lowerStr (s : String) : String := String.mk (s.data.map Char.toLower)

/-- Left-pad a digit string with zeros up to width `k`. -/
def zeroPad (s : String) (k : Nat) : String :=
  String.mk (List.replicate (k - s.length) '0') ++ s

/-! ## JSON values

`JValue` models the JSON-serializable Python values flowing through the
artifact layer.  Python floats are modelled as rationals (`rat`); the float
values actually produced by this codebase are decimal fractions, for which
the decimal rendering below agrees with Python's `repr`. -/

inductive JValue : Type where
  | null : JValue
  | bool (b : Bool) : JValue
  | num (n : Int) : JValue
  | rat (q : ℚ) : JValue
  | str (s : String) : JValue
  | arr (elems : List JValue) : JValue
  | obj (entries : List (String × JValue)) : JValue

mutual
/-- Boolean structural equality on `JValue` (for the `DecidableEq` instance). -/
def jeq : JValue → JValue → Bool
  | .null, .null => true
  | .bool a, .bool b => a == b
  | .num a, .num b => a == b
  | .rat a, .rat b => a == b
  | .str a, .str b => a == b
  | .arr xs, .arr ys => jeqList xs ys
  | .obj ps, .obj qs => jeqEntries ps qs
  | _, _ => false

def jeqList : List JValue → List JValue → Bool
  | [], [] => true
  | x :: xs, y :: ys => jeq x y && jeqList xs ys
  | _, _ => false

def jeqEntries : List (String × JValue) → List (String × JValue) → Bool
  | [], [] => true
  | p :: ps, q :: qs => p.1 == q.1 && jeq p.2 q.2 && jeqEntries ps qs
  | _, _ => false
end

mutual
theorem jeq_iff : ∀ a b : JValue, jeq a b = true ↔ a = b
  | .null, .null => by simp [jeq]
  | .bool a, .bool b => by simp [jeq]
  | .num a, .num b => by simp [jeq]
  | .rat a, .rat b => by simp [jeq]
  | .str a, .str b => by simp [jeq]
  | .arr xs, .arr ys => by
    simp only [jeq, jeqList_iff xs ys]
    exact ⟨fun h => by rw [h], fun h => by injection h⟩
  | .obj ps, .obj qs => by
    simp only [jeq, jeqEntries_iff ps qs]
    exact ⟨fun h => by rw [h], fun h => by injection h⟩
  | .null, .bool _ | .null, .num _ | .null, .rat _ | .null, .str _
  | .null, .arr _ | .null, .obj _ => by simp [jeq]
  | .bool _, .null | .bool _, .num _ | .bool _, .rat _ | .bool _, .str _
  | .bool _, .arr _ | .bool _, .obj _ => by simp [jeq]
  | .num _, .null | .num _, .bool _ | .num _, .rat _ | .num _, .str _
  | .num _, .arr _ | .num _, .obj _ => by simp [jeq]
  | .rat _, .null | .rat _, .bool _ | .rat _, .num _ | .rat _, .str _
  | .rat _, .arr _ | .rat _, .obj _ => by simp [jeq]
  | .str _, .null | .str _, .bool _ | .str _, .num _ | .str _, .rat _
  | .str _, .arr _ | .str _, .obj _ => by simp [jeq]
  | .arr _, .null | .arr _, .bool _ | .arr _, .num _ | .arr _, .rat _
  | .arr _, .str _ | .arr _, .obj _ => by simp [jeq]
  | .obj _, .null | .obj _, .bool _ | .obj _, .num _ | .obj _, .rat _
  | .obj _, .str _ | .obj _, .arr _ => by simp [jeq]

theorem jeqList_iff : ∀ xs ys : List JValue, jeqList xs ys = true ↔ xs = ys
  | [], [] => by simp [jeqList]
  | [], _ :: _ => by simp [jeqList]
  | _ :: _, [] => by simp [jeqList]
  | x :: xs, y :: ys => by
    simp [jeqList, Bool.and_eq_true, jeq_iff x y, jeqList_iff xs ys]

theorem jeqEntries_iff :
    ∀ ps qs : List (String × JValue), jeqEntries ps qs = true ↔ ps = qs
  | [], [] => by simp [jeqEntries]
  | [], _ :: _ => by simp [jeqEntries]
  | _ :: _, [] => by simp [jeqEntries]
  | p :: ps, q :: qs => by
    simp only [jeqEntries, Bool.and_eq_true, jeq_iff p.2 q.2,
      jeqEntries_iff ps qs, beq_iff_eq, List.cons.injEq]
    constructor
    · rintro ⟨⟨h1, h2⟩, h3⟩
      exact ⟨Prod.ext h1 h2, h3⟩
    · rintro ⟨h, h3⟩
      exact ⟨⟨congrArg Prod.fst h, congrArg Prod.snd h⟩, h3⟩
end

instance : DecidableEq JValue := fun a b =>
  decidable_of_iff (jeq a b = true) (jeq_iff a b)

/-! ## Python `repr` of the decimal floats produced by this codebase -/

/-- Decimal rendering of a rational, matching Python's `repr` on the exact
decimal-fraction floats that the audit layer produces (e.g. `1.0`, `0.5`,
`0.2`).  Non-decimal rationals (never produced by the embedded code) fall
back to a fraction rendering. -/
def ratRepr (q : ℚ) : String :=
  let n := q.num.natAbs
  let d := q.den
  let sign := if q.num < 0 then "-" else ""
  match (List.range 41).find? (fun k => 10 ^ k % d == 0) with
  | some k =>
    let scaled := n * 10 ^ k / d
    let ip := scaled / 10 ^ k
    let fp := scaled % 10 ^ k
    sign ++ toString ip ++ "." ++ (if k == 0 then "0" else zeroPad (toString fp) k)
  | none => sign ++ toString n ++ "/" ++ toString d

/-! ## JSON serialization mirroring Python `json.dumps` -/

/-- Escape one character as Python's `json.dumps(..., ensure_ascii=False)`
does: quote, backslash and control characters are escaped, everything else
passes through. -/
def escapeChar (c : Char) : String :=
  if c == '"' then "\\\""
  else if c == '\\' then "\\\\"
  else if c == '\n' then "\\n"
  else if c == '\r' then "\\r"
  else if c == '\t' then "\\t"
  else if c.toNat == 8 then "\\b"
  else if c.toNat == 12 then "\\f"
  else if c.toNat < 32 then
    "\\u00" ++ String.mk [hexChar (c.toNat / 16), hexChar (c.toNat % 16)]
  else String.mk [c]
where
  hexChar (n : Nat) : Char :=
    if n < 10 then Char.ofNat (48 + n) else Char.ofNat (87 + n)

/-- JSON string literal for `s` as `json.dumps` writes it. -/
def quoteJson (s : String) : String :=
  "\"" ++ String.join (s.data.map escapeChar) ++ "\""

/-- Order used by `json.dumps(..., sort_keys=True)`: items sorted by key
(Python string order = code-point order). -/
def entryLe (p q : String × String) : Prop := strLe p.1 q.1

instance : DecidableRel entryLe := fun p q => instDecidableEqBool (strLeB p.1 q.1) true

/-- Atom serialization shared by both `json.dumps` configurations. -/
def dumpsAtom : JValue → Option String
  | .null => some "null"
  | .bool true => some "true"
  | .bool false => some "false"
  | .num n => some (toString n)
  | .rat q => some (ratRepr q)
  | .str s => some (quoteJson s)
  | _ => none

mutual
/-- Canonical serialization: `json.dumps(content, sort_keys=True,
separators=(",", ":"), ensure_ascii=False)`.  Object items are serialized
entry-wise and then stably sorted by key, which coincides with Python's
sort-items-then-serialize order. -/
def dumpsCanonical : JValue → String
  | .null => "null"
  | .bool true => "true"
  | .bool false => "false"
  | .num n => toString n
  | .rat q => ratRepr q
  | .str s => quoteJson s
  | .arr xs => "[" ++ String.intercalate "," (dumpsCanonicalList xs) ++ "]"
  | .obj ps =>
    "\x7b" ++
      String.intercalate ","
        ((List.insertionSort entryLe (dumpsCanonicalEntries ps)).map
          (fun e => quoteJson e.1 ++ ":" ++ e.2)) ++ "\x7d"

def dumpsCanonicalList : List JValue → List String
  | [] => []
  | x :: xs => dumpsCanonical x :: dumpsCanonicalList xs

def dumpsCanonicalEntries : List (String × JValue) → List (String × String)
  | [] => []
  | p :: ps => (p.1, dumpsCanonical p.2) :: dumpsCanonicalEntries ps
end

mutual
/-- Default serialization: `json.dumps(content, ensure_ascii=False)` —
insertion order preserved, separators `", "` and `": "`. -/
def dumpsDefault : JValue → String
  | .null => "null"
  | .bool true => "true"
  | .bool false => "false"
  | .num n => toString n
  | .rat q => ratRepr q
  | .str s => quoteJson s
  | .arr xs => "[" ++ String.intercalate ", " (dumpsDefaultList xs) ++ "]"
  | .obj ps =>
    "\x7b" ++
      String.intercalate ", "
        ((dumpsDefaultEntries ps).map (fun e => quoteJson e.1 ++ ": " ++ e.2)) ++
      "\x7d"

def dumpsDefaultList : List JValue → List String
  | [] => []
  | x :: xs => dumpsDefault x :: dumpsDefaultList xs

def dumpsDefaultEntries : List (String × JValue) → List (String × String)
  | [] => []
  | p :: ps => (p.1, dumpsDefault p.2) :: dumpsDefaultEntries ps
end

/-! ## SHA-256 (pure, over byte lists; machine words as `Nat % 2^32`) -/

/-- UTF-8 encoding of one character, as `str.encode('utf-8')` produces. -/
def utf8Encode (c : Char) : List Nat :=
  let n := c.toNat
  if n < 0x80 then [n]
  else if n < 0x800 then
    [0xC0 ||| (n >>> 6), 0x80 ||| (n &&& 0x3F)]
  else if n < 0x10000 then
    [0xE0 ||| (n >>> 12), 0x80 ||| ((n >>> 6) &&& 0x3F), 0x80 ||| (n &&& 0x3F)]
  else
    [0xF0 ||| (n >>> 18), 0x80 ||| ((n >>> 12) &&& 0x3F),
     0x80 ||| ((n >>> 6) &&& 0x3F), 0x80 ||| (n &&& 0x3F)]

/-- UTF-8 bytes of a string. -/
def strBytes (s : String) : List Nat := s.data.flatMap utf8Encode

/-- 32-bit truncating addition. -/
def add32 (a b : Nat) : Nat := (a + b) % 4294967296

/-- 32-bit rotate right. -/
def rotr32 (n x : Nat) : Nat := ((x >>> n) ||| (x <<< (32 - n))) % 4294967296

/-- 32-bit bitwise complement. -/
def not32 (x : Nat) : Nat := x ^^^ 0xFFFFFFFF

/-- SHA-256 round constants. -/
def sha256K : List Nat :=
  [1116352408, 1899447441, 3049323471, 3921009573, 961987163,
   1508970993, 2453635748, 2870763221, 3624381080, 310598401,
   607225278, 1426881987, 1925078388, 2162078206, 2614888103,
   3248222580, 3835390401, 4022224774, 264347078, 604807628,
   770255983, 1249150122, 1555081692, 1996064986, 2554220882,
   2821834349, 2952996808, 3210313671, 3336571891, 3584528711,
   113926993, 338241895, 666307205, 773529912, 1294757372,
   1396182291, 1695183700, 1986661051, 2177026350, 2456956037,
   2730485921, 2820302411, 3259730800, 3345764771, 3516065817,
   3600352804, 4094571909, 275423344, 430227734, 506948616,
   659060556, 883997877, 958139571, 1322822218, 1537002063,
   1747873779, 1955562222, 2024104815, 2227730452, 2361852424,
   2428436474, 2756734187, 3204031479, 3329325298]

/-- SHA-256 initial hash values. -/
def sha256H0 : List Nat :=
  [1779033703, 3144134277, 1013904242, 2773480762,
   1359893119, 2600822924, 528734635, 1541459225]

/-- SHA-256 message padding (length in bits appended big-endian). -/
def sha256Pad (msg : List Nat) : List Nat :=
  let len := msg.length
  let zeros := (64 + 56 - (len + 1) % 64) % 64
  let bitLen := len * 8
  msg ++ [0x80] ++ List.replicate zeros 0 ++
    [(bitLen >>> 56) % 256, (bitLen >>> 48) % 256, (bitLen >>> 40) % 256,
     (bitLen >>> 32) % 256, (bitLen >>> 24) % 256, (bitLen >>> 16) % 256,
     (bitLen >>> 8) % 256, bitLen % 256]

/-- Group padded bytes into 32-bit big-endian words. -/
def bytesToWords : List Nat → List Nat
  | b0 :: b1 :: b2 :: b3 :: rest =>
    (b0 <<< 24 ||| b1 <<< 16 ||| b2 <<< 8 ||| b3) :: bytesToWords rest
  | _ => []

/-- Extend a 16-word block to the 64-word message schedule. -/
def sha256Extend (w : List Nat) (fuel : Nat) : List Nat :=
  match fuel with
  | 0 => w
  | fuel + 1 =>
    let i := w.length
    let w15 := w.getD (i - 15) 0
    let w2 := w.getD (i - 2) 0
    let s0 := rotr32 7 w15 ^^^ rotr32 18 w15 ^^^ (w15 >>> 3)
    let s1 := rotr32 17 w2 ^^^ rotr32 19 w2 ^^^ (w2 >>> 10)
    sha256Extend (w ++ [add32 (add32 (w.getD (i - 16) 0) s0) (add32 (w.getD (i - 7) 0) s1)]) fuel

/-- One SHA-256 compression round. -/
def sha256Round (st : List Nat) (ki wi : Nat) : List Nat :=
  match st with
  | [a, b, c, d, e, f, g, h] =>
    let s1 := rotr32 6 e ^^^ rotr32 11 e ^^^ rotr32 25 e
    let ch := (e &&& f) ^^^ (not32 e &&& g)
    let temp1 := add32 (add32 (add32 h s1) (add32 ch ki)) wi
    let s0 := rotr32 2 a ^^^ rotr32 13 a ^^^ rotr32 22 a
    let maj := (a &&& b) ^^^ (a &&& c) ^^^ (b &&& c)
    let temp2 := add32 s0 maj
    [add32 temp1 temp2, a, b, c, add32 d temp1, e, f, g]
  | other => other

/-- Compress one 512-bit block into the running hash state. -/
def sha256Block (hs : List Nat) (block : List Nat) : List Nat :=
  let w := sha256Extend block 48
  let st := (sha256K.zip w).foldl (fun st kw => sha256Round st kw.1 kw.2) hs
  (hs.zip st).map (fun p => add32 p.1 p.2)

/-- Split a word list into 16-word blocks (the padded SHA-256 message is
always a whole number of blocks). -/
def chunk16 : List Nat → List (List Nat)
  | w0 :: w1 :: w2 :: w3 :: w4 :: w5 :: w6 :: w7 ::
      w8 :: w9 :: w10 :: w11 :: w12 :: w13 :: w14 :: w15 :: rest =>
    [w0, w1, w2, w3, w4, w5, w6, w7, w8, w9, w10, w11, w12, w13, w14, w15] ::
      chunk16 rest
  | _ => []

/-- SHA-256 digest bytes of a byte message. -/
def sha256Bytes (msg : List Nat) : List Nat :=
  ((chunk16 (bytesToWords (sha256Pad msg))).foldl sha256Block sha256H0).flatMap
    (fun w => [(w >>> 24) % 256, (w >>> 16) % 256, (w >>> 8) % 256, w % 256])

/-- Lowercase hex rendering of digest bytes (Python `hexdigest()`). -/
def hexOfBytes (bs : List Nat) : String :=
  String.mk (bs.flatMap (fun b => [escapeChar.hexChar (b / 16), escapeChar.hexChar (b % 16)]))

/-- Hex SHA-256 digest of the UTF-8 encoding of a string:
`hashlib.sha256(s.encode('utf-8')).hexdigest()`. -/
def sha256HexOfString (s : String) : String := hexOfBytes (sha256Bytes (strBytes s))

/-- Embedding of `compute_content_hash` (src/agentic/artifacts/models.py):
canonical serialization (keys sorted, separators `","`/`":"`), UTF-8 encode,
SHA-256, prefixed with the algorithm tag. -/
def compute_content_hash (content : JValue) : String :=
  "sha256:" ++ sha256HexOfString (dumpsCanonical content)

/-! ## Properties of the code-point comparison -/

theorem char_toNat_inj {a b : Char} (h : a.toNat = b.toNat) : a = b := by
  rcases a with ⟨⟨⟨⟨av, ah⟩⟩⟩, ap⟩
  rcases b with ⟨⟨⟨⟨bv, bh⟩⟩⟩, bp⟩
  simp [Char.toNat, UInt32.toNat] at h
  subst h
  rfl

theorem cmpChars_swap : ∀ a b : List Char, cmpChars b a = (cmpChars a b).swap
  | [], [] => rfl
  | [], _ :: _ => rfl
  | _ :: _, [] => rfl
  | a :: as, b :: bs => by
    simp only [cmpChars]
    rcases Nat.lt_trichotomy a.toNat b.toNat with h | h | h
    · rw [if_neg (Nat.lt_asymm h), if_pos h, if_pos h]
      rfl
    · rw [h, if_neg (Nat.lt_irrefl _), if_neg (Nat.lt_irrefl _), if_neg (Nat.lt_irrefl _),
        if_neg (Nat.lt_irrefl _)]
      exact cmpChars_swap as bs
    · rw [if_pos h, if_neg (Nat.lt_asymm h), if_pos h]
      rfl

theorem cmpChars_eq_iff : ∀ a b : List Char, cmpChars a b = Ordering.eq ↔ a = b
  | [], [] => by simp [cmpChars]
  | [], _ :: _ => by simp [cmpChars]
  | _ :: _, [] => by simp [cmpChars]
  | a :: as, b :: bs => by
    simp only [cmpChars]
    rcases Nat.lt_trichotomy a.toNat b.toNat with h | h | h
    · rw [if_pos h]
      constructor
      · intro hc
        cases hc
      · intro hc
        injection hc with h1 _
        subst h1
        exact absurd h (Nat.lt_irrefl _)
    · have hab : a = b := char_toNat_inj h
      subst hab
      rw [if_neg (Nat.lt_irrefl _), if_neg (Nat.lt_irrefl _)]
      simp [cmpChars_eq_iff as bs]
    · rw [if_neg (Nat.lt_asymm h), if_pos h]
      constructor
      · intro hc
        cases hc
      · intro hc
        injection hc with h1 _
        subst h1
        exact absurd h (Nat.lt_irrefl _)

theorem cmpChars_lt_trans :
    ∀ a b c : List Char, cmpChars a b = Ordering.lt → cmpChars b c = Ordering.lt →
      cmpChars a c = Ordering.lt
  | [], [], _ => fun h _ => by cases h
  | [], _ :: _, [] => fun _ h2 => by cases h2
  | [], _ :: _, _ :: _ => fun _ _ => rfl
  | _ :: _, [], _ => fun h1 _ => by cases h1
  | _ :: _, _ :: _, [] => fun _ h2 => by cases h2
  | a :: as, b :: bs, c :: cs => by
    simp only [cmpChars]
    intro h1 h2
    rcases Nat.lt_trichotomy a.toNat b.toNat with hab | hab | hab
    · rcases Nat.lt_trichotomy b.toNat c.toNat with hbc | hbc | hbc
      · rw [if_pos (Nat.lt_trans hab hbc)]
      · rw [if_pos (hbc ▸ hab)]
      · rw [if_neg (Nat.lt_asymm hbc), if_pos hbc] at h2
        cases h2
    · rw [hab, if_neg (Nat.lt_irrefl _), if_neg (Nat.lt_irrefl _)] at h1
      rcases Nat.lt_trichotomy b.toNat c.toNat with hbc | hbc | hbc
      · rw [if_pos (hab ▸ hbc)]
      · have hac : a.toNat = c.toNat := hab.trans hbc
        rw [hac, if_neg (Nat.lt_irrefl _), if_neg (Nat.lt_irrefl _)]
        rw [hbc, if_neg (Nat.lt_irrefl _), if_neg (Nat.lt_irrefl _)] at h2
        exact cmpChars_lt_trans as bs cs h1 h2
      · rw [if_neg (Nat.lt_asymm hbc), if_pos hbc] at h2
        cases h2
    · rw [if_neg (Nat.lt_asymm hab), if_pos hab] at h1
      cases h1

theorem strLe_total (s t : String) : strLe s t ∨ strLe t s := by
  rcases hc : cmpChars s.data t.data with _ | _ | _
  · left
    unfold strLe strLeB
    rw [hc]
  · left
    unfold strLe strLeB
    rw [hc]
  · right
    unfold strLe strLeB
    rw [cmpChars_swap s.data t.data, hc]
    rfl

theorem string_data_inj {s t : String} (h : s.data = t.data) : s = t := by
  rcases s with ⟨sd⟩
  rcases t with ⟨td⟩
  have h2 : sd = td := h
  subst h2
  rfl

theorem strLe_trans {a b c : String} (h1 : strLe a b) (h2 : strLe b c) : strLe a c := by
  unfold strLe strLeB at *
  rcases hab : cmpChars a.data b.data with _ | _ | _
  · rcases hbc : cmpChars b.data c.data with _ | _ | _
    · rw [cmpChars_lt_trans a.data b.data c.data hab hbc]
    · have : b = c := string_data_inj ((cmpChars_eq_iff _ _).mp hbc)
      rw [← this, hab]
    · rw [hbc] at h2
      cases h2
  · have : a = b := string_data_inj ((cmpChars_eq_iff _ _).mp hab)
    rw [this]
    exact h2
  · rw [hab] at h1
    cases h1

instance : IsTotal String strLe := ⟨strLe_total⟩

instance : IsTrans String strLe := ⟨fun _ _ _ => strLe_trans⟩

instance : IsTotal (String × String) entryLe := ⟨fun p q => strLe_total p.1 q.1⟩

instance : IsTrans (String × String) entryLe := ⟨fun _ _ _ => strLe_trans⟩

/-- Strict key order on serialized entries, used to show that two sorted
permutations with pairwise-distinct keys coincide. -/
def keyLt (p q : String × String) : Prop := cmpChars p.1.data q.1.data = Ordering.lt

theorem keyLt_antisymm {p q : String × String} (h1 : keyLt p q) (h2 : keyLt q p) : p = q := by
  unfold keyLt at h1 h2
  rw [cmpChars_swap, h1] at h2
  cases h2

theorem entryLe_ne_keyLt {p q : String × String} (h : entryLe p q) (hne : p.1 ≠ q.1) :
    keyLt p q := by
  unfold entryLe strLe strLeB at h
  unfold keyLt
  rcases hc : cmpChars p.1.data q.1.data with _ | _ | _
  · rfl
  · exact absurd (string_data_inj ((cmpChars_eq_iff _ _).mp hc)) hne
  · rw [hc] at h
    cases h

/-- Two sorted entry lists that are permutations of each other and have
pairwise-distinct keys are equal. -/
theorem sorted_nodup_perm_eq {l₁ l₂ : List (String × String)}
    (hp : l₁.Perm l₂) (hs₁ : l₁.Pairwise entryLe) (hs₂ : l₂.Pairwise entryLe)
    (hn₁ : (l₁.map Prod.fst).Nodup) : l₁ = l₂ := by
  have hn₂ : (l₂.map Prod.fst).Nodup := (hp.map Prod.fst).nodup hn₁
  have hne₁ : l₁.Pairwise (fun p q : String × String => p.1 ≠ q.1) :=
    List.pairwise_map.mp hn₁
  have hne₂ : l₂.Pairwise (fun p q : String × String => p.1 ≠ q.1) :=
    List.pairwise_map.mp hn₂
  have hlt₁ : l₁.Pairwise keyLt :=
    (hs₁.and hne₁).imp (fun h => entryLe_ne_keyLt h.1 h.2)
  have hlt₂ : l₂.Pairwise keyLt :=
    (hs₂.and hne₂).imp (fun h => entryLe_ne_keyLt h.1 h.2)
  exact @List.eq_of_perm_of_sorted _ keyLt ⟨fun _ _ => keyLt_antisymm⟩ _ _ hp hlt₁ hlt₂

/-! ## Structural equality of JSON values up to object key order -/

mutual
/-- Key-order-independent structural equality of JSON values: atoms must be
equal, arrays pointwise structurally equal, and objects must relate by a
pointwise structurally-equal list followed by a permutation of entries. -/
def StructEq : JValue → JValue → Prop
  | .null, .null => True
  | .bool a, .bool b => a = b
  | .num a, .num b => a = b
  | .rat a, .rat b => a = b
  | .str a, .str b => a = b
  | .arr xs, .arr ys => StructEqList xs ys
  | .obj ps, .obj qs => ∃ l, StructEqEntries ps l ∧ l.Perm qs
  | _, _ => False

/-- Pointwise structural equality of JSON value lists. -/
def StructEqList : List JValue → List JValue → Prop
  | [], [] => True
  | x :: xs, y :: ys => StructEq x y ∧ StructEqList xs ys
  | _, _ => False

/-- Pointwise structural equality of object entry lists (same keys in the
same positions, structurally equal values). -/
def StructEqEntries : List (String × JValue) → List (String × JValue) → Prop
  | [], [] => True
  | p :: ps, q :: qs => p.1 = q.1 ∧ StructEq p.2 q.2 ∧ StructEqEntries ps qs
  | _, _ => False
end

/-- Distinctness of a key list (Boolean, for concrete evaluation). -/
def distinctKeysB : List String → Bool
  | [] => true
  | k :: ks => !(List.elem k ks) && distinctKeysB ks

mutual
/-- Every object reachable inside the value has pairwise-distinct keys.
This always holds for payloads coming from Python dictionaries. -/
def nodupKeysB : JValue → Bool
  | .arr xs => nodupKeysListB xs
  | .obj ps => distinctKeysB (ps.map Prod.fst) && nodupKeysEntriesB ps
  | _ => true

/-- List version of `nodupKeysB`. -/
def nodupKeysListB : List JValue → Bool
  | [] => true
  | x :: xs => nodupKeysB x && nodupKeysListB xs

/-- Entry-list version of `nodupKeysB` (checks the values). -/
def nodupKeysEntriesB : List (String × JValue) → Bool
  | [] => true
  | p :: ps => nodupKeysB p.2 && nodupKeysEntriesB ps
end

theorem distinctKeysB_iff : ∀ l : List String, distinctKeysB l = true ↔ l.Nodup
  | [] => by simp [distinctKeysB]
  | k :: ks => by
    simp [distinctKeysB, distinctKeysB_iff ks, List.elem_iff]

theorem nodupKeysEntriesB_iff :
    ∀ ps : List (String × JValue),
      nodupKeysEntriesB ps = true ↔ ∀ p ∈ ps, nodupKeysB p.2 = true
  | [] => by simp [nodupKeysEntriesB]
  | p :: ps => by
    simp [nodupKeysEntriesB, nodupKeysEntriesB_iff ps]

theorem dumpsCanonicalEntries_eq_map (ps : List (String × JValue)) :
    dumpsCanonicalEntries ps = ps.map (fun p => (p.1, dumpsCanonical p.2)) := by
  induction ps with
  | nil => rfl
  | cons p ps ih => simp [dumpsCanonicalEntries, ih]

theorem structEqEntries_keys :
    ∀ ps qs : List (String × JValue), StructEqEntries ps qs →
      ps.map Prod.fst = qs.map Prod.fst
  | [], [], _ => rfl
  | [], _ :: _, h => absurd h (by simp [StructEqEntries])
  | _ :: _, [], h => absurd h (by simp [StructEqEntries])
  | p :: ps, q :: qs, h => by
    rcases h with ⟨h1, _, h3⟩
    simp [h1, structEqEntries_keys ps qs h3]

/-! ## Canonical serialization is invariant under key order -/

mutual
theorem structEq_dumps :
    ∀ a b : JValue, nodupKeysB a = true → nodupKeysB b = true → StructEq a b →
      dumpsCanonical a = dumpsCanonical b
  | .null, .null, _, _, _ => rfl
  | .bool x, .bool y, _, _, h => by rw [show x = y from h]
  | .num x, .num y, _, _, h => by rw [show x = y from h]
  | .rat x, .rat y, _, _, h => by rw [show x = y from h]
  | .str x, .str y, _, _, h => by rw [show x = y from h]
  | .arr xs, .arr ys, ha, hb, h => by
    simp only [dumpsCanonical]
    rw [structEq_dumpsList xs ys ha hb h]
  | .obj ps, .obj qs, ha, hb, h => by
    rcases h with ⟨l, hpl, hlq⟩
    have ha' : distinctKeysB (ps.map Prod.fst) = true ∧ nodupKeysEntriesB ps = true := by
      simpa [nodupKeysB, Bool.and_eq_true] using ha
    have hb' : distinctKeysB (qs.map Prod.fst) = true ∧ nodupKeysEntriesB qs = true := by
      simpa [nodupKeysB, Bool.and_eq_true] using hb
    have hl : nodupKeysEntriesB l = true := by
      rw [nodupKeysEntriesB_iff]
      intro p hpmem
      exact (nodupKeysEntriesB_iff qs).mp hb'.2 p (hlq.mem_iff.mp hpmem)
    have hentry : dumpsCanonicalEntries ps = dumpsCanonicalEntries l :=
      structEq_dumpsEntries ps l ha'.2 hl hpl
    have hperm : (dumpsCanonicalEntries l).Perm (dumpsCanonicalEntries qs) := by
      rw [dumpsCanonicalEntries_eq_map, dumpsCanonicalEntries_eq_map]
      exact hlq.map _
    have hperm2 : (dumpsCanonicalEntries ps).Perm (dumpsCanonicalEntries qs) :=
      hentry ▸ hperm
    have hkeys₁ : ((dumpsCanonicalEntries ps).map Prod.fst).Nodup := by
      rw [dumpsCanonicalEntries_eq_map, List.map_map]
      exact (distinctKeysB_iff _).mp ha'.1
    have hsorted :
        List.insertionSort entryLe (dumpsCanonicalEntries ps) =
          List.insertionSort entryLe (dumpsCanonicalEntries qs) := by
      apply sorted_nodup_perm_eq
      · exact ((List.perm_insertionSort entryLe _).trans hperm2).trans
          (List.perm_insertionSort entryLe _).symm
      · exact List.sorted_insertionSort entryLe _
      · exact List.sorted_insertionSort entryLe _
      · exact ((List.perm_insertionSort entryLe _).map Prod.fst).symm.nodup hkeys₁
    simp only [dumpsCanonical]
    rw [hsorted]

theorem structEq_dumpsList :
    ∀ xs ys : List JValue, nodupKeysListB xs = true → nodupKeysListB ys = true →
      StructEqList xs ys → dumpsCanonicalList xs = dumpsCanonicalList ys
  | [], [], _, _, _ => rfl
  | [], _ :: _, _, _, h => absurd h (by simp [StructEqList])
  | _ :: _, [], _, _, h => absurd h (by simp [StructEqList])
  | x :: xs, y :: ys, ha, hb, h => by
    rcases h with ⟨h1, h2⟩
    have ha' := by simpa [nodupKeysListB, Bool.and_eq_true] using ha
    have hb' := by simpa [nodupKeysListB, Bool.and_eq_true] using hb
    simp only [dumpsCanonicalList]
    rw [structEq_dumps x y ha'.1 hb'.1 h1, structEq_dumpsList xs ys ha'.2 hb'.2 h2]

theorem structEq_dumpsEntries :
    ∀ ps qs : List (String × JValue), nodupKeysEntriesB ps = true →
      nodupKeysEntriesB qs = true → StructEqEntries ps qs →
      dumpsCanonicalEntries ps = dumpsCanonicalEntries qs
  | [], [], _, _, _ => rfl
  | [], _ :: _, _, _, h => absurd h (by simp [StructEqEntries])
  | _ :: _, [], _, _, h => absurd h (by simp [StructEqEntries])
  | p :: ps, q :: qs, ha, hb, h => by
    rcases h with ⟨h1, h2, h3⟩
    have ha' := by simpa [nodupKeysEntriesB, Bool.and_eq_true] using ha
    have hb' := by simpa [nodupKeysEntriesB, Bool.and_eq_true] using hb
    simp only [dumpsCanonicalEntries]
    rw [h1, structEq_dumps p.2 q.2 ha'.1 hb'.1 h2,
      structEq_dumpsEntries ps qs ha'.2 hb'.2 h3]
end

/-! ## Audit checks (src/agentic/audits/checks.py) -/

mutual
/-- Embedding of `_walk_strings`: all leaf strings of a nested payload, in
traversal order (strings, then dict values, then list items). -/
def walk_strings : JValue → List String
  | .str s => [s]
  | .obj ps => walk_stringsEntries ps
  | .arr xs => walk_stringsList xs
  | _ => []

/-- `_walk_strings` over list items. -/
def walk_stringsList : List JValue → List String
  | [] => []
  | x :: xs => walk_strings x ++ walk_stringsList xs

/-- `_walk_strings` over dict values. -/
def walk_stringsEntries : List (String × JValue) → List String
  | [] => []
  | p :: ps => walk_strings p.2 ++ walk_stringsEntries ps
end

/-- Regex word character (`\w`) for the stable-ID pattern; the IDs this
repository matches are ASCII. -/
def isWordChar (c : Char) : Bool := c.isAlphanum || c == '_'

/-- Attempt to match the regex `\b<pre>-\d\d\d\d\b` at the current position.
`before` is the character preceding the position (`none` at the start). -/
def tryMatchId (pre : List Char) (before : Option Char) (text : List Char) :
    Option String :=
  let boundary :=
    match before with
    | none => true
    | some c => !isWordChar c
  if boundary && startsWithChars (pre ++ ['-']) text then
    match text.drop (pre.length + 1) with
    | d1 :: d2 :: d3 :: d4 :: rest =>
      if d1.isDigit && d2.isDigit && d3.isDigit && d4.isDigit &&
          (match rest with
           | [] => true
           | c :: _ => !isWordChar c) then
        some (String.mk (pre ++ '-' :: [d1, d2, d3, d4]))
      else none
    | _ => none
  else none

/-- All matches of `\b<pre>-\d\d\d\d\b` in a text, scanning left to right
(matches of this pattern can never overlap, so this coincides with
`re.findall`). -/
def findStableIds (pre : List Char) : Option Char → List Char → List String
  | _, [] => []
  | before, c :: rest =>
    (match tryMatchId pre before (c :: rest) with
     | some m => [m]
     | none => []) ++ findStableIds pre (some c) rest

/-- Embedding of `extract_stable_ids`: collect all `<pre>-NNNN` matches from
every leaf string and return them deduplicated and sorted (Python
`sorted(set(...))`). -/
def extract_stable_ids (artifact_content : JValue) (idPre : String) : List String :=
  List.insertionSort strLe
    (((walk_strings artifact_content).flatMap
        (fun text => findStableIds idPre.data none text.data)).dedup)

/-- Python `dict.get(k, default)` over the association-list embedding of a
dictionary (Python dictionaries have unique keys). -/
def dictGetD (d : List (String × JValue)) (k : String) (dflt : JValue) : JValue :=
  match d.lookup k with
  | some v => v
  | none => dflt

/-- Error emitted when requirements exist without objective IDs. -/
def traceErrNoObjectives : String :=
  "Requirements exist but no objective IDs were found for traceability."

/-- Error emitted when requirements exist without task trace links. -/
def traceErrNoTaskLinks : String :=
  "Requirements exist but no task-to-requirement trace links were found."

/-- Embedding of `check_traceability`. -/
def check_traceability (artifacts : List (String × JValue)) : List String :=
  let objective_ids := extract_stable_ids (dictGetD artifacts "ProblemBrief" (.obj [])) "OBJ"
  let requirement_ids :=
    extract_stable_ids (dictGetD artifacts "ImplementableSpec" (.obj [])) "REQ"
  let task_links := extract_stable_ids (dictGetD artifacts "WorkBreakdown" (.obj [])) "REQ"
  (if !requirement_ids.isEmpty && objective_ids.isEmpty then [traceErrNoObjectives]
   else []) ++
  (if !requirement_ids.isEmpty && task_links.isEmpty then [traceErrNoTaskLinks]
   else [])

/-- The unresolved-placeholder markers of `check_completeness`. -/
def unresolvedMarkers : List String := ["TBD", "TODO", "TO_BE_DEFINED"]

/-- Embedding of `check_completeness`: one error per marker that occurs in
some upper-cased leaf string. -/
def check_completeness (artifact_content : JValue) : List String :=
  let upper_strings := (walk_strings artifact_content).map upperStr
  unresolvedMarkers.filterMap (fun marker =>
    if upper_strings.any (fun text => strContains text marker) then
      some ("Unresolved marker detected: " ++ marker)
    else none)

/-- Embedding of `check_consistency`. -/
def check_consistency (artifacts : List (String × JValue)) : List String :=
  let nfr_text :=
    lowerStr (String.intercalate " "
      (walk_strings (dictGetD artifacts "NonFunctionalRequirements" (.obj []))))
  let adr_text :=
    lowerStr (String.intercalate " "
      (walk_strings (dictGetD artifacts "ArchitectureDecisionRecordSet" (.obj []))))
  let contradictions : List (String × String) :=
    [("eventual consistency", "strong consistency"),
     ("single region only", "multi-region required")]
  contradictions.filterMap (fun pr =>
    if strContains nfr_text pr.1 && strContains nfr_text pr.2 &&
        !strContains adr_text "tradeoff" then
      some ("Potential contradiction without ADR tradeoff: " ++ pr.1 ++ " vs " ++
        pr.2 ++ ".")
    else none)

/-! ## Audit gates (src/agentic/audits/gates.py) -/

/-- The pipeline input dictionary as consumed by the sufficiency gate:
`content` (defaulting to `""`) and an optional explicit `size` key. -/
structure PipelineInput where
  content : String
  size : Option Int
deriving DecidableEq

/-- One blocking gap of the sufficiency assessment.  The `markers` field is
present only on the unresolved-placeholder gap. -/
structure BlockingGap where
  area : String
  description : String
  suggested_question : String
  markers : Option (List String)
deriving DecidableEq

/-- Embedding of the `InfoSufficiencyAssessmentContent` payload produced by
the sufficiency gate (confidence as an exact rational). -/
structure SufficiencyAssessment where
  confidence_score : ℚ
  blocking_gaps : List BlockingGap
deriving DecidableEq

/-- `int(pipeline_input.get("size", len(content)))`. -/
def inputSize (pipeline_input : PipelineInput) : Int :=
  match pipeline_input.size with
  | some s => s
  | none => (pipeline_input.content.length : Int)

/-- The list comprehension selecting markers that occur case-insensitively
in the content. -/
def foundMarkers (content : String) (insufficient_markers : List String) : List String :=
  insufficient_markers.filter (fun marker =>
    strContains (upperStr content) (upperStr marker))

/-- The blocking gap recorded for insufficient scope. -/
def scopeGap : BlockingGap :=
  { area := "scope"
    description := "Description is too short for implementation planning."
    suggested_question := "What are the key goals, constraints, and acceptance criteria?"
    markers := none }

/-- The blocking gap recorded for unresolved placeholders. -/
def markersGap (found_markers : List String) : BlockingGap :=
  { area := "unknowns"
    description := "Input contains unresolved placeholders."
    suggested_question := "Can you resolve placeholders before planning?"
    markers := some found_markers }

/-- Embedding of `run_sufficiency_evaluation` (src/agentic/audits/gates.py):
confidence starts at 1, loses 1/2 on a short input and 3/10 on found
markers, then is clamped to [0, 1]. -/
def run_sufficiency_evaluation (pipeline_input : PipelineInput)
    (min_content_size : Int) (insufficient_markers : List String) :
    SufficiencyAssessment :=
  let size := inputSize pipeline_input
  let confidence : ℚ := 1
  let blocking_gaps : List BlockingGap := []
  let step1 :=
    if size < min_content_size then (confidence - 1/2, blocking_gaps ++ [scopeGap])
    else (confidence, blocking_gaps)
  let found_markers := foundMarkers pipeline_input.content insufficient_markers
  let step2 :=
    if found_markers.isEmpty then step1
    else (step1.1 - 3/10, step1.2 ++ [markersGap found_markers])
  { confidence_score := max 0 (min 1 step2.1)
    blocking_gaps := step2.2 }

/-- The deterministic audit outcome: the returned dictionary with `passed`,
the combined `errors`, and the per-check sub-results. -/
structure DetAuditResult where
  passed : Bool
  errors : List String
  traceability : List String
  consistency : List String
  completeness : List (String × List String)
deriving DecidableEq

/-- One step of the completeness loop of `run_deterministic_audit`. -/
def completenessStep (acc : List (String × List String) × List String)
    (p : String × JValue) : List (String × List String) × List String :=
  let es := check_completeness p.2
  if es.isEmpty then acc
  else (acc.1 ++ [(p.1, es)], acc.2 ++ es.map (fun e => p.1 ++ ": " ++ e))

/-- The completeness loop of `run_deterministic_audit`: per-artifact
completeness results and prefixed error strings, in artifact order. -/
def completenessFold (artifacts : List (String × JValue)) :
    List (String × List String) × List String :=
  artifacts.foldl completenessStep ([], [])

/-- Embedding of `run_deterministic_audit` (src/agentic/audits/gates.py). -/
def run_deterministic_audit (artifacts : List (String × JValue)) : DetAuditResult :=
  let traceability_errors := check_traceability artifacts
  let consistency_errors := check_consistency artifacts
  let comp := completenessFold artifacts
  let errors := traceability_errors ++ consistency_errors ++ comp.2
  { passed := errors.isEmpty
    errors := errors
    traceability := traceability_errors
    consistency := consistency_errors
    completeness := comp.1 }

/-- The semantic evaluation outcome dictionary. -/
structure SemanticResult where
  confidence_score : ℚ
  blocking_gaps : List BlockingGap
  evidence_refs : List String
  rubric_ref : Option String
deriving DecidableEq

/-- Embedding of `DefaultSemanticEvaluator.evaluate`
(src/agentic/audits/rubric_eval.py): a neutral pass with full confidence and
the sorted artifact keys as evidence. -/
def defaultSemanticEvaluate (artifacts : List (String × JValue))
    (rubric : Option String) : SemanticResult :=
  { confidence_score := 1
    blocking_gaps := []
    evidence_refs := List.insertionSort strLe ((artifacts.map Prod.fst).dedup)
    rubric_ref := rubric }

/-- Embedding of `run_semantic_audit` (src/agentic/audits/gates.py). -/
def run_semantic_audit (artifacts : List (String × JValue))
    (rubric : Option String) : SemanticResult :=
  defaultSemanticEvaluate artifacts rubric

/-! ## Traceability matrix (src/agentic/audits/traceability.py) -/

/-- One gap entry of the traceability matrix. -/
structure MatrixGap where
  row_id : String
  column_id : Option String
  severity : String
deriving DecidableEq

/-- The `TraceabilityMatrixContent` payload. `cells` models the Python dict
keyed `"row|column"` as an association list in insertion order (the keys
are unique because the matched IDs contain no `|`). -/
structure TraceabilityMatrixContent where
  rows : List String
  columns : List String
  cells : List (String × List String)
  gaps : List MatrixGap
deriving DecidableEq

/-- The column ID kinds (`column_prefixes` in the source). -/
def columnIdKinds : List String := ["OBJ", "ADR", "DES", "TASK", "TEST"]

/-- Columns of the matrix: the union of the column-kind IDs found across all
artifact contents, sorted (`sorted(columns_set)`). -/
def matrixColumns (contents : List (String × JValue)) : List String :=
  List.insertionSort strLe
    ((columnIdKinds.flatMap (fun pre =>
        contents.flatMap (fun p => extract_stable_ids p.2 pre))).dedup)

/-- `content_texts`: the default (`json.dumps(..., ensure_ascii=False)`)
serialization of every artifact content. -/
def contentTexts (contents : List (String × JValue)) : List (String × String) :=
  contents.map (fun p => (p.1, dumpsDefault p.2))

/-- The columns matched for one row: those co-occurring with the row in some
artifact's serialized text (the source's inner loop with its early `break`
is a filter by existence). -/
def matchedColumns (contents : List (String × JValue)) (row : String) : List String :=
  (matrixColumns contents).filter (fun column =>
    (contentTexts contents).any (fun p =>
      strContains p.2 row && strContains p.2 column))

/-- Embedding of `build_traceability_matrix` over the loaded artifact
contents (type name ↦ content payload). -/
def build_traceability_matrix (contents : List (String × JValue)) :
    TraceabilityMatrixContent :=
  let rows := extract_stable_ids (dictGetD contents "ImplementableSpec" (.obj [])) "REQ"
  { rows := rows
    columns := matrixColumns contents
    cells := rows.flatMap (fun row =>
      (matchedColumns contents row).map
        (fun column => (row ++ "|" ++ column, [row, column])))
    gaps := (rows.filter (fun row => (matchedColumns contents row).isEmpty)).map
      (fun row => { row_id := row, column_id := none, severity := "high" }) }

/-! ## Collaboration events (src/agentic/collaboration/models.py, event_log.py) -/

/-- The collaboration event type enumeration. -/
inductive CollaborationEventType : Type where
  | stakeholder_question_asked
  | stakeholder_answer_received
  | artifact_produced
  | artifact_revised
  | audit_gate_passed
  | audit_gate_failed
  | orchestrator_decision_made
deriving DecidableEq

/-- The string value of an event type (the `str`-enum value). -/
def eventTypeValue : CollaborationEventType → String
  | .stakeholder_question_asked => "stakeholder_question_asked"
  | .stakeholder_answer_received => "stakeholder_answer_received"
  | .artifact_produced => "artifact_produced"
  | .artifact_revised => "artifact_revised"
  | .audit_gate_passed => "audit_gate_passed"
  | .audit_gate_failed => "audit_gate_failed"
  | .orchestrator_decision_made => "orchestrator_decision_made"

/-- Parse an event type from its string value. -/
def eventTypeOfValue (s : String) : Option CollaborationEventType :=
  if s = "stakeholder_question_asked" then some .stakeholder_question_asked
  else if s = "stakeholder_answer_received" then some .stakeholder_answer_received
  else if s = "artifact_produced" then some .artifact_produced
  else if s = "artifact_revised" then some .artifact_revised
  else if s = "audit_gate_passed" then some .audit_gate_passed
  else if s = "audit_gate_failed" then some .audit_gate_failed
  else if s = "orchestrator_decision_made" then some .orchestrator_decision_made
  else none

/-- Reference to a separately stored collaboration content blob. -/
structure ContentRef where
  path : String
  content_hash : String
deriving DecidableEq

/-- The `CollaborationEvent` model. -/
structure CollaborationEvent where
  event_id : String
  timestamp : String
  run_id : String
  actor : String
  event_type : CollaborationEventType
  references : List String
  content_ref : Option ContentRef
  summary : String
deriving DecidableEq

/-- `event.model_dump(mode="json")`: the serialized JSON object of an event. -/
def eventToJson (e : CollaborationEvent) : JValue :=
  .obj [("event_id", .str e.event_id), ("timestamp", .str e.timestamp),
        ("run_id", .str e.run_id), ("actor", .str e.actor),
        ("event_type", .str (eventTypeValue e.event_type)),
        ("references", .arr (e.references.map JValue.str)),
        ("content_ref",
          match e.content_ref with
          | none => .null
          | some r => .obj [("path", .str r.path), ("content_hash", .str r.content_hash)]),
        ("summary", .str e.summary)]

/-- Extract a JSON string. -/
def asStr : JValue → Option String
  | .str s => some s
  | _ => none

/-- `CollaborationEvent.model_validate_json` on one parsed line: every field
is validated, `references` defaults to `[]` and `content_ref` to `None`. -/
def eventFromJson : JValue → Option CollaborationEvent
  | .obj entries => do
    let event_id ← (entries.lookup "event_id").bind asStr
    let timestamp ← (entries.lookup "timestamp").bind asStr
    let run_id ← (entries.lookup "run_id").bind asStr
    let actor ← (entries.lookup "actor").bind asStr
    let event_type ← ((entries.lookup "event_type").bind asStr).bind eventTypeOfValue
    let references ←
      match entries.lookup "references" with
      | none => some []
      | some (.arr xs) => xs.mapM asStr
      | some _ => none
    let content_ref ←
      match entries.lookup "content_ref" with
      | none => some none
      | some .null => some none
      | some (.obj ps) => do
        let path ← (ps.lookup "path").bind asStr
        let content_hash ← (ps.lookup "content_hash").bind asStr
        some (some { path := path, content_hash := content_hash })
      | some _ => none
    let summary ← (entries.lookup "summary").bind asStr
    some { event_id := event_id, timestamp := timestamp, run_id := run_id,
           actor := actor, event_type := event_type, references := references,
           content_ref := content_ref, summary := summary }
  | _ => none

/-- The events file of one run's collaboration directory, modelled at the
parsed-JSON-line level: `none` when the file is absent, otherwise the list
of JSON records, one per line. -/
def emitEventLog (file : Option (List JValue)) (e : CollaborationEvent) :
    Option (List JValue) :=
  some (file.getD [] ++ [eventToJson e])

/-- Embedding of `CollaborationEventLog.read_all`: the empty sequence when
the file is absent, otherwise every line parsed in file order (a malformed
line raises, modelled by `none`). -/
def read_all (file : Option (List JValue)) : Option (List CollaborationEvent) :=
  match file with
  | none => some []
  | some lines => lines.mapM eventFromJson

/-! ## Derived runs (src/agentic/orchestration/derived_run.py) -/

/-- Python truthiness `bool(x)` of a JSON value. -/
def jTruthy : JValue → Bool
  | .null => false
  | .bool b => b
  | .num n => n != 0
  | .rat q => q != 0
  | .str s => !s.data.isEmpty
  | .arr xs => !xs.isEmpty
  | .obj ps => !ps.isEmpty

/-- Python dict assignment `d[k] = v`: replace in place when the key exists,
else append the pair. -/
def dictSet (d : List (String × JValue)) (k : String) (v : JValue) :
    List (String × JValue) :=
  if d.any (fun p => p.1 == k) then d.map (fun p => if p.1 == k then (k, v) else p)
  else d ++ [(k, v)]

/-- Embedding of `apply_amendment`: requires the base metadata to record a
non-empty original `pipeline_input` carrying a `content` key (else
`ValueError`; a non-mapping value would fail Python's `dict(...)` call);
merges an `amended_context` block exactly when the amendment carries a
truthy `amended_assumptions` or `amended_tradeoffs`. -/
def apply_amendment (base_metadata amendment : List (String × JValue)) :
    Except String (List (String × JValue)) :=
  match dictGetD base_metadata "pipeline_input" (.obj []) with
  | .obj pipeline_input =>
    if pipeline_input.isEmpty || (pipeline_input.lookup "content").isNone then
      .error "Base run metadata must contain pipeline_input for derived run replay."
    else
      let amended_assumptions := dictGetD amendment "amended_assumptions" (.arr [])
      let amended_tradeoffs := dictGetD amendment "amended_tradeoffs" (.arr [])
      if jTruthy amended_assumptions || jTruthy amended_tradeoffs then
        .ok (dictSet pipeline_input "amended_context"
          (.obj [("amended_assumptions", amended_assumptions),
                 ("amended_tradeoffs", amended_tradeoffs),
                 ("reason", dictGetD amendment "reason" .null)]))
      else .ok pipeline_input
  | _ => .error "TypeError: pipeline_input is not a mapping"

/-! ## Artifact store persistence (src/agentic/artifacts/store.py) -/

/-- One artifact manifest entry of the run metadata. -/
structure ManifestEntry where
  artifact_type : String
  file : String
  content_hash : String
deriving DecidableEq

/-- The run metadata document written by `write_metadata` (the timestamp is
supplied by the caller; the source takes it from the clock). -/
structure MetadataDoc where
  run_id : String
  timestamp : String
  config_root : String
  input_file : Option String
  pipeline_name : String
  execution_successful : Bool
  total_execution_time : ℚ
  artifacts_manifest : List ManifestEntry
deriving DecidableEq

/-- The audit snapshot document passed to `write_audit_results`. -/
structure AuditDoc where
  deterministic : DetAuditResult
  semantic : SemanticResult
  sufficiency : SufficiencyAssessment
  traceability_matrix_ref : Option String
deriving DecidableEq

/-- A persisted file's parsed document. -/
inductive FileDoc : Type where
  | jsonDoc (v : JValue)
  | metaDoc (m : MetadataDoc)
  | auditDoc (a : AuditDoc)
deriving DecidableEq

/-- The filesystem under the runs directory, path ↦ parsed document; a later
write shadows an earlier one at the same path (last write wins). -/
abbrev FileSystem := List (String × FileDoc)

/-- Overwrite `path` with `doc`. -/
def fsWrite (fs : FileSystem) (path : String) (doc : FileDoc) : FileSystem :=
  (path, doc) :: fs

/-- Read the current document at `path`. -/
def fsRead (fs : FileSystem) (path : String) : Option FileDoc :=
  fs.lookup path

/-- The `ArtifactStore` state: its constructor arguments plus the on-disk
state it owns. -/
structure ArtifactStoreState where
  runs_directory : String
  create_artifacts : Bool
  fs : FileSystem

/-- Embedding of `ArtifactStore.get_run_directory`. -/
def get_run_directory (st : ArtifactStoreState) (run_id : String) : String :=
  st.runs_directory ++ "/" ++ run_id

/-- Modelled from the spec: `write_audit_results` is called by the
orchestrator and exercised by the repository's tests, but the method body is
not among the source files (`ArtifactStore` in src/ ends at
`write_metadata`).  Per the spec it persists the run-level audit summary
document under the run's directory at `audits/audit_results.json`,
last-write-wins, returning the path (or `None` when persistence is
disabled). -/
def write_audit_results (st : ArtifactStoreState) (run_id : String)
    (results : AuditDoc) : ArtifactStoreState × Option String :=
  if st.create_artifacts then
    let path := get_run_directory st run_id ++ "/audits/audit_results.json"
    ({ st with fs := fsWrite st.fs path (.auditDoc results) }, some path)
  else (st, none)

/-- Embedding of `ArtifactStore.write_metadata`: persist the run metadata
document at `metadata.json` under the run directory (no-op returning `None`
when persistence is disabled). -/
def write_metadata (st : ArtifactStoreState) (run_id : String) (timestamp : String)
    (config_root : String) (input_file : Option String) (pipeline_name : String)
    (execution_successful : Bool) (total_execution_time : ℚ)
    (artifacts_manifest : List ManifestEntry) : ArtifactStoreState × Option String :=
  if st.create_artifacts then
    let path := get_run_directory st run_id ++ "/metadata.json"
    ({ st with fs := fsWrite st.fs path (.metaDoc
        { run_id := run_id, timestamp := timestamp, config_root := config_root,
          input_file := input_file, pipeline_name := pipeline_name,
          execution_successful := execution_successful,
          total_execution_time := total_execution_time,
          artifacts_manifest := artifacts_manifest }) }, some path)
  else (st, none)

/-! ## Orchestrator (src/core/orchestrator.py)

`execute_pipeline` is embedded as a pure function from its configuration,
the external agent-execution capability (an oracle `agentExec`), the
emission outcome of the collaboration log (an oracle `emitOk`, modelling
that `CollaborationEventLog.emit` may raise), and the pipeline input, to
the side effects performed and the returned result (exceptions as
`Except.error`).  `hasStore`/`hasLog` model the optional `artifact_store`
and `collaboration_event_log` arguments. -/

/-- The audit policy configuration (`AuditConfig` in config_loader.py). -/
structure OrchAuditConfig where
  min_confidence_to_proceed : ℚ
  min_input_size_for_sufficiency : Int
  insufficient_markers : List String
  sufficiency_rubric : Option String

/-- One configured pipeline step (its name and declared input sources). -/
structure AgentStepConfig where
  name : String
  inputs : List String
deriving DecidableEq

/-- The pipeline configuration. -/
structure PipelineConfig where
  name : String
  agents : List AgentStepConfig

/-- A collaboration event as emitted by the orchestrator (the generated
`event_id`/`timestamp` are abstracted away). -/
structure EmittedEvent where
  actor : String
  event_type : CollaborationEventType
  references : List String
  summary : String
deriving DecidableEq

/-- The side effects of one `execute_pipeline` call: agent-execution
invocations, artifacts written (type ↦ content, overwriting per type),
audit snapshots written, events appended to the collaboration log, and
warnings logged for failed emissions. -/
structure OrchEffects where
  invoked : List String
  artifacts : List (String × JValue)
  audit_writes : List AuditDoc
  events : List EmittedEvent
  warnings : Nat
deriving DecidableEq

/-- Embedding of `Orchestrator._emit_collaboration_event`: emit the event
and catch any emission error, logging a warning instead of propagating. -/
def emit_collaboration_event (emitOk : EmittedEvent → Bool) (eff : OrchEffects)
    (e : EmittedEvent) : OrchEffects :=
  if emitOk e then { eff with events := eff.events ++ [e] }
  else { eff with warnings := eff.warnings + 1 }

/-- `model_dump(mode="json")` of one blocking gap (the `markers` key is
present only on the placeholder gap). -/
def gapJson (g : BlockingGap) : JValue :=
  .obj ([("area", .str g.area), ("description", .str g.description),
         ("suggested_question", .str g.suggested_question)] ++
    (match g.markers with
     | none => []
     | some ms => [("markers", .arr (ms.map JValue.str))]))

/-- `model_dump(mode="json")` of the sufficiency assessment content. -/
def sufficiencyContentJson (a : SufficiencyAssessment) : JValue :=
  .obj [("raw_response", .null), ("confidence_score", .rat a.confidence_score),
        ("blocking_gaps", .arr (a.blocking_gaps.map gapJson))]

/-- `model_dump(mode="json")` of one traceability gap. -/
def matrixGapJson (g : MatrixGap) : JValue :=
  .obj [("row_id", .str g.row_id),
        ("column_id", match g.column_id with | none => .null | some c => .str c),
        ("severity", .str g.severity)]

/-- `model_dump(mode="json")` of the traceability matrix content. -/
def matrixContentJson (m : TraceabilityMatrixContent) : JValue :=
  .obj [("raw_response", .null), ("rows", .arr (m.rows.map JValue.str)),
        ("columns", .arr (m.columns.map JValue.str)),
        ("cells", .obj (m.cells.map (fun p => (p.1, JValue.arr (p.2.map JValue.str))))),
        ("gaps", .arr (m.gaps.map matrixGapJson))]

/-- `AGENT_ARTIFACT_MAP.get(agent_name, ArtifactType.BUSINESS_REQUIREMENTS)`. -/
def agentArtifactType (name : String) : String :=
  if name = "product_owner" then "ProblemBrief"
  else if name = "business_analyst" then "BusinessRequirements"
  else if name = "ba_lead" then "NonFunctionalRequirements"
  else if name = "solution_architect" then "C4Model"
  else if name = "system_analyst" then "ImplementableSpec"
  else if name = "developer" then "ImplementationDesign"
  else if name = "senior_developer" then "DesignReview"
  else if name = "security_reviewer" then "ThreatModel"
  else if name = "qa_engineer" then "TestPlan"
  else if name = "plan_maker" then "ImplementationDesign"
  else if name = "plan_critique_generator" then "DesignReview"
  else if name = "plan_critique_comparator" then "CodeReview"
  else "BusinessRequirements"

/-- The pipeline input dictionary as JSON (its `content` and optional
`size` keys). -/
def pipelineInputJson (inp : PipelineInput) : JValue :=
  .obj ([("content", .str inp.content)] ++
    (match inp.size with
     | none => []
     | some s => [("size", .num s)]))

/-- Embedding of `Orchestrator._prepare_agent_input`: a single source maps
directly to the `input` key, multiple sources map to a named-by-source
mapping; an unknown source raises a `PipelineError`. -/
def prepare_agent_input (pipelineInput : JValue)
    (agentsOut : List (String × JValue)) (inputs : List String) :
    Except String JValue :=
  match inputs with
  | [src] =>
    if src = "pipeline_input" then .ok (.obj [("input", pipelineInput)])
    else
      match agentsOut.lookup src with
      | some out => .ok (.obj [("input", out)])
      | none => .error ("Invalid input source " ++ src)
  | _ => do
    let pairs ← inputs.mapM (fun src =>
      if src = "pipeline_input" then Except.ok (src, pipelineInput)
      else
        match agentsOut.lookup src with
        | some out => Except.ok (src, out)
        | none => Except.error ("Invalid input source " ++ src))
    .ok (.obj [("input", .obj pairs)])

/-- The outcome of the agent-execution loop. -/
structure LoopResult where
  eff : OrchEffects
  agents : List (String × JValue)
  manifest : List ManifestEntry
  failure : Option String
deriving DecidableEq

/-- The agent-execution loop of `execute_pipeline`: for each configured
step, resolve its inputs, invoke the agent-execution capability, record the
output, persist the artifact (when a store is present) and emit an
artifact-produced event (when a log is present). -/
def runAgentSteps (hasStore hasLog : Bool) (agentExec : String → JValue → JValue)
    (emitOk : EmittedEvent → Bool) (pipelineInput : JValue) :
    List AgentStepConfig → OrchEffects → List (String × JValue) →
      List ManifestEntry → LoopResult
  | [], eff, agentsOut, manifest =>
    { eff := eff, agents := agentsOut, manifest := manifest, failure := none }
  | step :: rest, eff, agentsOut, manifest =>
    match prepare_agent_input pipelineInput agentsOut step.inputs with
    | .error msg =>
      { eff := eff, agents := agentsOut, manifest := manifest, failure := some msg }
    | .ok agentInput =>
      let out := agentExec step.name agentInput
      let eff1 := { eff with invoked := eff.invoked ++ [step.name] }
      let agentsOut1 := agentsOut ++ [(step.name, out)]
      if hasStore then
        let atype := agentArtifactType step.name
        let eff2 := { eff1 with artifacts := dictSet eff1.artifacts atype out }
        let manifest1 := manifest ++
          [{ artifact_type := atype, file := "artifacts/" ++ atype ++ ".json",
             content_hash := compute_content_hash out }]
        let eff3 :=
          if hasLog then
            emit_collaboration_event emitOk eff2
              { actor := step.name, event_type := .artifact_produced,
                references := [atype, compute_content_hash out],
                summary := "Artifact " ++ atype ++ " produced" }
          else eff2
        runAgentSteps hasStore hasLog agentExec emitOk pipelineInput rest
          eff3 agentsOut1 manifest1
      else
        runAgentSteps hasStore hasLog agentExec emitOk pipelineInput rest
          eff1 agentsOut1 manifest

/-- The returned pipeline result (timing metadata abstracted away;
`blocking_gaps` is present in the metadata only on the blocked path). -/
structure PipelineResult where
  pipeline_name : String
  execution_successful : Bool
  agents : List (String × JValue)
  blocking_gaps : Option (List BlockingGap)
  artifacts_manifest : List ManifestEntry
deriving DecidableEq

/-- The trivially passing deterministic snapshot written on the blocked
path (`{"passed": True, "errors": [], "results": {}}`). -/
def trivialPassDet : DetAuditResult :=
  { passed := true, errors := [], traceability := [], consistency := [],
    completeness := [] }

/-- The audit snapshot written when the sufficiency gate blocks the run. -/
def gateFailAuditDoc (audit_config : OrchAuditConfig)
    (assessment : SufficiencyAssessment) : AuditDoc :=
  { deterministic := trivialPassDet
    semantic := { confidence_score := assessment.confidence_score,
                  blocking_gaps := assessment.blocking_gaps, evidence_refs := [],
                  rubric_ref := audit_config.sufficiency_rubric }
    sufficiency := assessment
    traceability_matrix_ref := none }

/-- The "Pipeline execution started" decision event. -/
def startedEvent : EmittedEvent :=
  { actor := "orchestrator", event_type := .orchestrator_decision_made,
    references := [], summary := "Pipeline execution started" }

/-- The audit-gate-failed event of the blocked path. -/
def gateFailedEvent : EmittedEvent :=
  { actor := "orchestrator", event_type := .audit_gate_failed,
    references := ["InfoSufficiencyAssessment"],
    summary := "Sufficiency audit failed" }

/-- The orchestrator-decision event of the blocked path. -/
def stopDecisionEvent : EmittedEvent :=
  { actor := "orchestrator", event_type := .orchestrator_decision_made,
    references := ["InfoSufficiencyAssessment"],
    summary := "Pipeline stopped: insufficient information" }

/-- The traceability-build and post-audit phase of `execute_pipeline`,
entered after the agent loop finishes (or aborts). -/
def post_agent_loop (cfg : PipelineConfig) (audit_config : OrchAuditConfig)
    (hasStore hasLog : Bool) (emitOk : EmittedEvent → Bool)
    (assessment : SufficiencyAssessment) (lr : LoopResult) :
    OrchEffects × Except String PipelineResult :=
  match lr.failure with
  | some msg => (lr.eff, .error ("Pipeline execution failed: " ++ msg))
  | none =>
    let matrix := build_traceability_matrix lr.eff.artifacts
    let matrixArtifacts :=
      dictSet lr.eff.artifacts "TraceabilityMatrix" (matrixContentJson matrix)
    let effE :=
      if hasStore then { lr.eff with artifacts := matrixArtifacts } else lr.eff
    let effF :=
      if hasStore && hasLog then
        emit_collaboration_event emitOk effE
          { actor := "orchestrator", event_type := .artifact_produced,
            references := ["TraceabilityMatrix",
              compute_content_hash (matrixContentJson matrix)],
            summary := "Artifact TraceabilityMatrix produced" }
      else effE
    let manifest1 :=
      if hasStore then
        lr.manifest ++
          [{ artifact_type := "TraceabilityMatrix",
             file := "artifacts/TraceabilityMatrix.json",
             content_hash := compute_content_hash (matrixContentJson matrix) }]
      else lr.manifest
    let matrixRef : Option String :=
      if hasStore then some "artifacts/TraceabilityMatrix.json" else none
    if hasStore then
      let det := run_deterministic_audit effF.artifacts
      let sem := run_semantic_audit effF.artifacts audit_config.sufficiency_rubric
      let auditWrite : AuditDoc :=
        { deterministic := det, semantic := sem, sufficiency := assessment,
          traceability_matrix_ref := matrixRef }
      let effG := { effF with audit_writes := effF.audit_writes ++ [auditWrite] }
      let effH :=
        if hasLog then
          emit_collaboration_event emitOk effG
            { actor := "orchestrator",
              event_type := if det.passed then .audit_gate_passed else .audit_gate_failed,
              references := ["audits/audit_results.json"],
              summary := if det.passed then "Deterministic audit passed"
                else "Deterministic audit failed" }
        else effG
      if !det.passed then
        (effH, .error "Pipeline execution failed: Deterministic audit failed.")
      else if sem.confidence_score < audit_config.min_confidence_to_proceed then
        let effI :=
          if hasLog then
            emit_collaboration_event emitOk effH
              { actor := "orchestrator", event_type := .audit_gate_failed,
                references := ["audits/audit_results.json"],
                summary := "Semantic audit confidence below threshold" }
          else effH
        (effI, .error "Pipeline execution failed: Semantic audit confidence below threshold.")
      else
        let effJ :=
          if hasLog then
            emit_collaboration_event emitOk effH
              { actor := "orchestrator", event_type := .orchestrator_decision_made,
                references := [], summary := "Pipeline execution completed" }
          else effH
        let okResult : PipelineResult :=
          { pipeline_name := cfg.name, execution_successful := true,
            agents := lr.agents, blocking_gaps := none,
            artifacts_manifest := manifest1 }
        (effJ, .ok okResult)
    else
      let effJ :=
        if hasLog then
          emit_collaboration_event emitOk effF
            { actor := "orchestrator", event_type := .orchestrator_decision_made,
              references := [], summary := "Pipeline execution completed" }
        else effF
      let okResult : PipelineResult :=
        { pipeline_name := cfg.name, execution_successful := true,
          agents := lr.agents, blocking_gaps := none,
          artifacts_manifest := manifest1 }
      (effJ, .ok okResult)

/-- Embedding of `Orchestrator.execute_pipeline`: sufficiency gate, agent
loop, traceability matrix, post-execution audits; failures are the wrapped
`PipelineError` messages of the source's outer `except` clause. -/
def execute_pipeline (cfg : PipelineConfig) (audit_config : OrchAuditConfig)
    (hasStore hasLog : Bool) (agentExec : String → JValue → JValue)
    (emitOk : EmittedEvent → Bool) (input_data : PipelineInput) :
    OrchEffects × Except String PipelineResult :=
  let eff0 : OrchEffects := { invoked := [], artifacts := [], audit_writes := [],
                              events := [], warnings := 0 }
  let effA := if hasLog then emit_collaboration_event emitOk eff0 startedEvent else eff0
  let assessment := run_sufficiency_evaluation input_data
    audit_config.min_input_size_for_sufficiency audit_config.insufficient_markers
  let suffArtifacts :=
    dictSet effA.artifacts "InfoSufficiencyAssessment" (sufficiencyContentJson assessment)
  let effB :=
    if hasStore then { effA with artifacts := suffArtifacts } else effA
  let manifest0 : List ManifestEntry :=
    if hasStore then
      [{ artifact_type := "InfoSufficiencyAssessment",
         file := "artifacts/InfoSufficiencyAssessment.json",
         content_hash := compute_content_hash (sufficiencyContentJson assessment) }]
    else []
  if assessment.confidence_score < audit_config.min_confidence_to_proceed then
    let gateWrites := effB.audit_writes ++ [gateFailAuditDoc audit_config assessment]
    let effC :=
      if hasStore then { effB with audit_writes := gateWrites } else effB
    let effD :=
      if hasLog then
        emit_collaboration_event emitOk
          (emit_collaboration_event emitOk effC gateFailedEvent) stopDecisionEvent
      else effC
    let blockedResult : PipelineResult :=
      { pipeline_name := cfg.name, execution_successful := false,
        agents := [], blocking_gaps := some assessment.blocking_gaps,
        artifacts_manifest := manifest0 }
    (effD, .ok blockedResult)
  else
    let effC :=
      if hasLog then
        emit_collaboration_event emitOk effB
          { actor := "orchestrator", event_type := .audit_gate_passed,
            references := ["InfoSufficiencyAssessment"],
            summary := "Sufficiency audit passed" }
      else effB
    post_agent_loop cfg audit_config hasStore hasLog emitOk assessment
      (runAgentSteps hasStore hasLog agentExec emitOk
        (pipelineInputJson input_data) cfg.agents effC [] manifest0)

/-! ## Helper lemmas about case-insensitive containment and the audit loop -/

theorem startsWithChars_map_toUpper :
    ∀ {needle hay : List Char}, startsWithChars needle hay = true →
      startsWithChars (needle.map Char.toUpper) (hay.map Char.toUpper) = true
  | [], _, _ => rfl
  | _ :: _, [], h => by cases h
  | a :: as, b :: bs, h => by
    simp only [startsWithChars, Bool.and_eq_true, beq_iff_eq] at h
    simp only [List.map_cons, startsWithChars, Bool.and_eq_true, beq_iff_eq]
    exact ⟨by rw [h.1], startsWithChars_map_toUpper h.2⟩

theorem containsChars_map_toUpper :
    ∀ (hay : List Char) {needle : List Char}, containsChars hay needle = true →
      containsChars (hay.map Char.toUpper) (needle.map Char.toUpper) = true
  | [], needle, h => by
    unfold containsChars at h ⊢
    simp only [Bool.or_eq_true] at h ⊢
    rcases h with h1 | h2
    · exact Or.inl (startsWithChars_map_toUpper h1)
    · cases h2
  | c :: t, needle, h => by
    unfold containsChars at h ⊢
    simp only [List.map_cons, Bool.or_eq_true] at h ⊢
    rcases h with h1 | h2
    · exact Or.inl (startsWithChars_map_toUpper h1)
    · exact Or.inr (containsChars_map_toUpper t h2)

theorem strContains_upper {s m : String} (hm : m.data.map Char.toUpper = m.data)
    (h : strContains s m = true) : strContains (upperStr s) m = true := by
  show containsChars (s.data.map Char.toUpper) m.data = true
  rw [← hm]
  exact containsChars_map_toUpper s.data h

theorem check_completeness_tbd {c : JValue} {s : String}
    (hs : s ∈ walk_strings c) (hc : strContains s "TBD" = true) :
    "Unresolved marker detected: TBD" ∈ check_completeness c := by
  have hmem : upperStr s ∈ (walk_strings c).map upperStr :=
    List.mem_map_of_mem upperStr hs
  have hcontains : strContains (upperStr s) "TBD" = true :=
    strContains_upper (by decide) hc
  have hany :
      ((walk_strings c).map upperStr).any (fun text => strContains text "TBD") = true :=
    List.any_eq_true.mpr ⟨_, hmem, hcontains⟩
  unfold check_completeness
  refine List.mem_filterMap.mpr ⟨"TBD", by simp [unresolvedMarkers], ?_⟩
  simp [hany]

theorem completenessFold_snd :
    ∀ (l : List (String × JValue)) (acc : List (String × List String) × List String),
      (l.foldl completenessStep acc).2 =
        acc.2 ++ l.flatMap (fun p => (check_completeness p.2).map (fun e => p.1 ++ ": " ++ e))
  | [], acc => by simp
  | p :: ps, acc => by
    rw [List.foldl_cons, completenessFold_snd ps]
    unfold completenessStep
    by_cases h : (check_completeness p.2).isEmpty
    · rw [if_pos h]
      have hnil : check_completeness p.2 = [] := by
        simpa using h
      simp [hnil]
    · rw [if_neg h]
      simp

theorem ne_nil_isEmpty_false {α : Type} {l : List α} (h : l ≠ []) : l.isEmpty = false := by
  cases l with
  | nil => exact absurd rfl h
  | cons a as => rfl

theorem matchedColumns_mem (contents : List (String × JValue)) (row c : String) :
    c ∈ matchedColumns contents row ↔
      c ∈ matrixColumns contents ∧
        ∃ p ∈ contents, strContains (dumpsDefault p.2) row = true ∧
          strContains (dumpsDefault p.2) c = true := by
  unfold matchedColumns contentTexts
  rw [List.mem_filter]
  constructor
  · rintro ⟨hcol, hany⟩
    rcases List.any_eq_true.mp hany with ⟨pr, hpr, hco⟩
    rcases List.mem_map.mp hpr with ⟨p, hp, hpe⟩
    rw [← hpe] at hco
    simp only [Bool.and_eq_true] at hco
    exact ⟨hcol, p, hp, hco.1, hco.2⟩
  · rintro ⟨hcol, p, hp, h1, h2⟩
    refine ⟨hcol, List.any_eq_true.mpr ⟨(p.1, dumpsDefault p.2), List.mem_map_of_mem _ hp, ?_⟩⟩
    simp [h1, h2]

theorem mapM_asStr_map (l : List String) : (l.map JValue.str).mapM asStr = some l := by
  induction l with
  | nil => rfl
  | cons a as ih =>
    rw [List.map_cons, List.mapM_cons, ih]
    rfl

theorem mapM_loop_asStr (l : List String) : ∀ acc : List String,
    List.mapM.loop asStr (l.map JValue.str) acc = some (acc.reverse ++ l) := by
  induction l with
  | nil => intro acc; simp [List.mapM.loop]
  | cons a as ih =>
    intro acc
    simp only [List.map_cons, List.mapM.loop, asStr, Option.bind_eq_bind,
      Option.some_bind, ih (a :: acc)]
    simp

theorem eventFromJson_eventToJson (e : CollaborationEvent) :
    eventFromJson (eventToJson e) = some e := by
  rcases e with ⟨eid, ts, rid, actor, et, refs, cref, summary⟩
  cases et <;> rcases cref with _ | ⟨p, h⟩ <;>
    simp [eventToJson, eventFromJson, eventTypeValue, eventTypeOfValue,
      asStr, mapM_asStr_map, mapM_loop_asStr, List.lookup]

theorem mapM_eventFromJson (l : List CollaborationEvent) :
    (l.map eventToJson).mapM eventFromJson = some l := by
  induction l with
  | nil => rfl
  | cons e es ih =>
    rw [List.map_cons, List.mapM_cons, eventFromJson_eventToJson e, ih]
    rfl

theorem foldl_emit_some (l : List CollaborationEvent) (acc : List JValue) :
    l.foldl emitEventLog (some acc) = some (acc ++ l.map eventToJson) := by
  induction l generalizing acc with
  | nil => simp
  | cons e es ih =>
    rw [List.foldl_cons]
    show es.foldl emitEventLog (some (acc ++ [eventToJson e])) = _
    rw [ih (acc ++ [eventToJson e])]
    simp

theorem read_all_after_emits (events : List CollaborationEvent) :
    read_all (events.foldl emitEventLog none) = some events := by
  cases events with
  | nil => rfl
  | cons e es =>
    rw [List.foldl_cons]
    show read_all (es.foldl emitEventLog (some [eventToJson e])) = some (e :: es)
    rw [foldl_emit_some es [eventToJson e]]
    show ([eventToJson e] ++ es.map eventToJson).mapM eventFromJson = some (e :: es)
    have : [eventToJson e] ++ es.map eventToJson = (e :: es).map eventToJson := by simp
    rw [this]
    exact mapM_eventFromJson (e :: es)

/-! ## Emission resilience: the emitter only influences the event log -/

@[simp] theorem emit_invoked (f : EmittedEvent → Bool) (eff : OrchEffects)
    (e : EmittedEvent) : (emit_collaboration_event f eff e).invoked = eff.invoked := by
  unfold emit_collaboration_event
  split <;> rfl

@[simp] theorem emit_artifacts (f : EmittedEvent → Bool) (eff : OrchEffects)
    (e : EmittedEvent) : (emit_collaboration_event f eff e).artifacts = eff.artifacts := by
  unfold emit_collaboration_event
  split <;> rfl

@[simp] theorem emit_audit_writes (f : EmittedEvent → Bool) (eff : OrchEffects)
    (e : EmittedEvent) :
    (emit_collaboration_event f eff e).audit_writes = eff.audit_writes := by
  unfold emit_collaboration_event
  split <;> rfl

/-- The agent loop's outcome apart from the event log does not depend on the
emission oracle. -/
theorem runAgentSteps_emitter_agnostic
    (agentExec : String → JValue → JValue) (f g : EmittedEvent → Bool) (pin : JValue) :
    ∀ (steps : List AgentStepConfig) (hasStore hasLog : Bool) (e1 e2 : OrchEffects)
      (agentsOut : List (String × JValue)) (manifest : List ManifestEntry),
      e1.invoked = e2.invoked → e1.artifacts = e2.artifacts →
      e1.audit_writes = e2.audit_writes →
      (runAgentSteps hasStore hasLog agentExec f pin steps e1 agentsOut manifest).eff.invoked =
        (runAgentSteps hasStore hasLog agentExec g pin steps e2 agentsOut manifest).eff.invoked ∧
      (runAgentSteps hasStore hasLog agentExec f pin steps e1 agentsOut manifest).eff.artifacts =
        (runAgentSteps hasStore hasLog agentExec g pin steps e2 agentsOut manifest).eff.artifacts ∧
      (runAgentSteps hasStore hasLog agentExec f pin steps e1 agentsOut manifest).eff.audit_writes =
        (runAgentSteps hasStore hasLog agentExec g pin steps e2 agentsOut manifest).eff.audit_writes ∧
      (runAgentSteps hasStore hasLog agentExec f pin steps e1 agentsOut manifest).agents =
        (runAgentSteps hasStore hasLog agentExec g pin steps e2 agentsOut manifest).agents ∧
      (runAgentSteps hasStore hasLog agentExec f pin steps e1 agentsOut manifest).manifest =
        (runAgentSteps hasStore hasLog agentExec g pin steps e2 agentsOut manifest).manifest ∧
      (runAgentSteps hasStore hasLog agentExec f pin steps e1 agentsOut manifest).failure =
        (runAgentSteps hasStore hasLog agentExec g pin steps e2 agentsOut manifest).failure
  | [], _, _, e1, e2, agentsOut, manifest, h1, h2, h3 => ⟨h1, h2, h3, rfl, rfl, rfl⟩
  | step :: rest, hasStore, hasLog, e1, e2, agentsOut, manifest, h1, h2, h3 => by
    unfold runAgentSteps
    cases hp : prepare_agent_input pin agentsOut step.inputs with
    | error msg => exact ⟨h1, h2, h3, rfl, rfl, rfl⟩
    | ok agentInput =>
      rcases Bool.eq_false_or_eq_true hasStore with hS | hS <;>
        rcases Bool.eq_false_or_eq_true hasLog with hL | hL <;>
          simp only [hS, hL, if_true, if_false, Bool.false_eq_true, Bool.true_eq_false] <;>
            refine runAgentSteps_emitter_agnostic agentExec f g pin rest
              _ _ _ _ _ _ ?_ ?_ ?_ <;>
              simp [h1, h2, h3]

/-- The post-loop phase apart from the event log does not depend on the
emission oracle. -/
theorem post_agent_loop_emitter_agnostic (cfg : PipelineConfig)
    (audit_config : OrchAuditConfig) (hasStore hasLog : Bool)
    (f g : EmittedEvent → Bool) (assessment : SufficiencyAssessment)
    (lr1 lr2 : LoopResult)
    (h1 : lr1.eff.invoked = lr2.eff.invoked)
    (h2 : lr1.eff.artifacts = lr2.eff.artifacts)
    (h3 : lr1.eff.audit_writes = lr2.eff.audit_writes)
    (hag : lr1.agents = lr2.agents) (hm : lr1.manifest = lr2.manifest)
    (hf : lr1.failure = lr2.failure) :
    (post_agent_loop cfg audit_config hasStore hasLog f assessment lr1).2 =
      (post_agent_loop cfg audit_config hasStore hasLog g assessment lr2).2 ∧
    (post_agent_loop cfg audit_config hasStore hasLog f assessment lr1).1.invoked =
      (post_agent_loop cfg audit_config hasStore hasLog g assessment lr2).1.invoked ∧
    (post_agent_loop cfg audit_config hasStore hasLog f assessment lr1).1.artifacts =
      (post_agent_loop cfg audit_config hasStore hasLog g assessment lr2).1.artifacts ∧
    (post_agent_loop cfg audit_config hasStore hasLog f assessment lr1).1.audit_writes =
      (post_agent_loop cfg audit_config hasStore hasLog g assessment lr2).1.audit_writes := by
  unfold post_agent_loop
  rw [← hf]
  rcases hfail : lr1.failure with _ | msg
  · simp only [hfail]
    rw [← h2, ← hag, ← hm]
    rcases Bool.eq_false_or_eq_true hasStore with hS | hS <;>
      rcases Bool.eq_false_or_eq_true hasLog with hL | hL <;>
        simp only [hS, hL] <;> simp [h1, h2, h3] <;>
          split_ifs <;> simp [h1, h2, h3]
  · simp only [hfail]
    exact ⟨trivial, h1, h2, h3⟩

/-! ## Claim theorems for the audit engine -/

/-- C1: structurally equal content payloads (key order disregarded, with the
duplicate-free keys of Python dictionaries) receive the same content hash,
and every hash is the `sha256:` tag followed by the hex digest of the
canonical (keys sorted, no insignificant whitespace) serialization. -/
theorem content_hash_key_order_invariant (a b : JValue)
    (ha : nodupKeysB a = true) (hb : nodupKeysB b = true) (h : StructEq a b) :
    compute_content_hash a = compute_content_hash b ∧
    compute_content_hash a = "sha256:" ++ sha256HexOfString (dumpsCanonical a) :=
  ⟨by unfold compute_content_hash; rw [structEq_dumps a b ha hb h], rfl⟩

/-- Witness for C1 at two concrete payloads whose nested keys are reordered. -/
theorem content_hash_key_order_invariant_witness :
    compute_content_hash
        (JValue.obj [("title", .str "T"), ("meta", .obj [("x", .num 1), ("y", .null)])]) =
      compute_content_hash
        (JValue.obj [("meta", .obj [("y", .null), ("x", .num 1)]), ("title", .str "T")]) := by
  refine (content_hash_key_order_invariant _ _ (by decide) (by decide) ?_).1
  refine ⟨[("title", .str "T"), ("meta", .obj [("y", .null), ("x", .num 1)])], ?_, ?_⟩
  · simp only [StructEqEntries, StructEq]
    refine ⟨trivial, trivial, trivial,
      ⟨[("x", .num 1), ("y", .null)], ?_, List.Perm.swap _ _ _⟩, trivial⟩
    simp [StructEqEntries, StructEq]
  · exact List.Perm.swap _ _ _

/-- C3: the sufficiency evaluation starts at confidence 1, subtracts 1/2
exactly when the size is below the threshold (adding the scope gap),
subtracts 3/10 exactly when a marker occurs case-insensitively (adding the
gap listing the found markers), clamps to [0,1]; a short input with a marker
scores at most 1/5 with exactly two gaps, and an ample marker-free input
scores 1 with no gaps. -/
theorem sufficiency_evaluation_spec (pipeline_input : PipelineInput)
    (min_content_size : Int) (insufficient_markers : List String) :
    (run_sufficiency_evaluation pipeline_input min_content_size
        insufficient_markers).confidence_score =
      max 0 (min 1
        (1 - (if inputSize pipeline_input < min_content_size then (1 : ℚ)/2 else 0)
          - (if foundMarkers pipeline_input.content insufficient_markers = [] then 0
             else 3/10))) ∧
    (run_sufficiency_evaluation pipeline_input min_content_size
        insufficient_markers).blocking_gaps =
      (if inputSize pipeline_input < min_content_size then [scopeGap] else []) ++
      (if foundMarkers pipeline_input.content insufficient_markers = [] then []
       else [markersGap (foundMarkers pipeline_input.content insufficient_markers)]) ∧
    0 ≤ (run_sufficiency_evaluation pipeline_input min_content_size
        insufficient_markers).confidence_score ∧
    (run_sufficiency_evaluation pipeline_input min_content_size
        insufficient_markers).confidence_score ≤ 1 ∧
    (inputSize pipeline_input < min_content_size →
      foundMarkers pipeline_input.content insufficient_markers ≠ [] →
      (run_sufficiency_evaluation pipeline_input min_content_size
          insufficient_markers).confidence_score ≤ 1/5 ∧
      (run_sufficiency_evaluation pipeline_input min_content_size
          insufficient_markers).blocking_gaps.length = 2) ∧
    (¬ inputSize pipeline_input < min_content_size →
      foundMarkers pipeline_input.content insufficient_markers = [] →
      (run_sufficiency_evaluation pipeline_input min_content_size
          insufficient_markers).confidence_score = 1 ∧
      (run_sufficiency_evaluation pipeline_input min_content_size
          insufficient_markers).blocking_gaps.length = 0) := by
  by_cases hs : inputSize pipeline_input < min_content_size <;>
    by_cases hm : foundMarkers pipeline_input.content insufficient_markers = [] <;>
    simp [run_sufficiency_evaluation, hs, hm, ne_nil_isEmpty_false] <;>
    norm_num

/-- C10: the explicit `size` key takes precedence over the content length
(which is only the fallback when `size` is absent): a content text shorter
than the threshold paired with an ample `size` value incurs no size penalty
and, absent markers, keeps confidence 1 with no gaps. -/
theorem sufficiency_size_key_precedence (content : String) (s : Int)
    (min_content_size : Int) (insufficient_markers : List String)
    (hshort : (content.length : Int) < min_content_size)
    (hample : min_content_size ≤ s)
    (hmarkers : foundMarkers content insufficient_markers = []) :
    (run_sufficiency_evaluation ⟨content, some s⟩ min_content_size
        insufficient_markers).confidence_score = 1 ∧
    (run_sufficiency_evaluation ⟨content, some s⟩ min_content_size
        insufficient_markers).blocking_gaps = [] ∧
    run_sufficiency_evaluation ⟨content, none⟩ min_content_size insufficient_markers =
      run_sufficiency_evaluation ⟨content, some ((content.length : Int))⟩
        min_content_size insufficient_markers := by
  have hns : ¬ inputSize ⟨content, some s⟩ < min_content_size := by
    simp only [inputSize]
    omega
  refine ⟨?_, ?_, ?_⟩
  · simp [run_sufficiency_evaluation, hns, hmarkers]
  · simp [run_sufficiency_evaluation, hns, hmarkers]
  · rfl

/-- Witness for C10: a 10-character content with `size` 200 against threshold
120 keeps confidence 1. -/
theorem sufficiency_size_key_precedence_witness :
    (run_sufficiency_evaluation ⟨"short text", some 200⟩ 120
        ["TBD", "TODO"]).confidence_score = 1 :=
  (sufficiency_size_key_precedence "short text" 200 120 ["TBD", "TODO"]
    (by decide) (by decide) (by decide)).1

/-- C5: the deterministic audit passes exactly when its combined error list
is empty; an artifact with a literal "TBD" in a leaf string yields a
completeness error and failure, and requirement IDs in the spec artifact
without objective IDs in the problem brief yield the traceability error and
failure. -/
theorem deterministic_audit_spec (artifacts : List (String × JValue)) :
    ((run_deterministic_audit artifacts).passed = true ↔
      (run_deterministic_audit artifacts).errors = []) ∧
    (∀ t c, (t, c) ∈ artifacts →
      (∃ s ∈ walk_strings c, strContains s "TBD" = true) →
      check_completeness c ≠ [] ∧ (run_deterministic_audit artifacts).passed = false) ∧
    ((extract_stable_ids (dictGetD artifacts "ImplementableSpec" (.obj [])) "REQ" ≠ [] ∧
      extract_stable_ids (dictGetD artifacts "ProblemBrief" (.obj [])) "OBJ" = []) →
      traceErrNoObjectives ∈ check_traceability artifacts ∧
      (run_deterministic_audit artifacts).passed = false) := by
  refine ⟨?_, ?_, ?_⟩
  · unfold run_deterministic_audit
    simp
  · intro t c hmem ⟨s, hsmem, hsc⟩
    have hcomp : "Unresolved marker detected: TBD" ∈ check_completeness c :=
      check_completeness_tbd hsmem hsc
    have hne : check_completeness c ≠ [] := List.ne_nil_of_mem hcomp
    refine ⟨hne, ?_⟩
    have herr : (t ++ ": " ++ "Unresolved marker detected: TBD") ∈
        (completenessFold artifacts).2 := by
      unfold completenessFold
      rw [completenessFold_snd]
      simp only [List.nil_append, List.mem_flatMap]
      exact ⟨(t, c), hmem, List.mem_map_of_mem _ hcomp⟩
    unfold run_deterministic_audit
    have : (t ++ ": " ++ "Unresolved marker detected: TBD") ∈
        check_traceability artifacts ++ check_consistency artifacts ++
          (completenessFold artifacts).2 :=
      List.mem_append_right _ herr
    simpa using ne_nil_isEmpty_false (List.ne_nil_of_mem this)
  · intro ⟨hreq, hobj⟩
    have htr : traceErrNoObjectives ∈ check_traceability artifacts := by
      simp [check_traceability, hobj, ne_nil_isEmpty_false hreq]
    refine ⟨htr, ?_⟩
    unfold run_deterministic_audit
    have : traceErrNoObjectives ∈
        check_traceability artifacts ++ check_consistency artifacts ++
          (completenessFold artifacts).2 :=
      List.mem_append_left _ (List.mem_append_left _ htr)
    simpa using ne_nil_isEmpty_false (List.ne_nil_of_mem this)

/-- C6: the traceability matrix takes rows = requirement IDs of the spec
artifact and columns = the union of OBJ/ADR/DES/TASK/TEST IDs across all
artifacts; a cell value `[row, column]` is recorded exactly when the pair is
a row and a column that co-occur in the serialized text of one artifact, and
a row appears among the gaps (always with severity "high") exactly when no
column co-occurs with it. -/
theorem traceability_matrix_spec (contents : List (String × JValue)) :
    (build_traceability_matrix contents).rows =
      extract_stable_ids (dictGetD contents "ImplementableSpec" (.obj [])) "REQ" ∧
    (∀ c : String, c ∈ (build_traceability_matrix contents).columns ↔
      ∃ pre ∈ columnIdKinds, ∃ p ∈ contents, c ∈ extract_stable_ids p.2 pre) ∧
    (∀ r c : String,
      [r, c] ∈ (build_traceability_matrix contents).cells.map Prod.snd ↔
        (r ∈ (build_traceability_matrix contents).rows ∧
         c ∈ (build_traceability_matrix contents).columns ∧
         ∃ p ∈ contents, strContains (dumpsDefault p.2) r = true ∧
           strContains (dumpsDefault p.2) c = true)) ∧
    (∀ r : String,
      (∃ g ∈ (build_traceability_matrix contents).gaps, g.row_id = r) ↔
        (r ∈ (build_traceability_matrix contents).rows ∧
         ∀ c ∈ (build_traceability_matrix contents).columns,
           ¬ ∃ p ∈ contents, strContains (dumpsDefault p.2) r = true ∧
             strContains (dumpsDefault p.2) c = true)) ∧
    (∀ g ∈ (build_traceability_matrix contents).gaps, g.severity = "high") := by
  refine ⟨rfl, ?_, ?_, ?_, ?_⟩
  · intro c
    show c ∈ matrixColumns contents ↔ _
    unfold matrixColumns
    rw [(List.perm_insertionSort strLe _).mem_iff, List.mem_dedup]
    simp [List.mem_flatMap]
  · intro r c
    have hcells : (build_traceability_matrix contents).cells.map Prod.snd =
        (build_traceability_matrix contents).rows.flatMap
          (fun row => (matchedColumns contents row).map (fun column => [row, column])) := by
      show (List.flatMap _ _).map Prod.snd = _
      rw [List.map_flatMap]
      simp only [List.map_map]
      rfl
    rw [hcells]
    constructor
    · intro hmem
      rcases List.mem_flatMap.mp hmem with ⟨row, hrow, hrc⟩
      rcases List.mem_map.mp hrc with ⟨col, hcol, heq⟩
      have hr : row = r := by injection heq
      have hc : col = c := by
        injection heq with _ h2
        injection h2
      subst hr
      subst hc
      rcases (matchedColumns_mem contents row col).mp hcol with ⟨h1, h2⟩
      exact ⟨hrow, h1, h2⟩
    · rintro ⟨hrow, hcol, hco⟩
      refine List.mem_flatMap.mpr ⟨r, hrow, List.mem_map.mpr ⟨c, ?_, rfl⟩⟩
      exact (matchedColumns_mem contents r c).mpr ⟨hcol, hco⟩
  · intro r
    show (∃ g ∈ (List.filter _ _).map _, _) ↔ _
    constructor
    · rintro ⟨g, hg, hgr⟩
      rcases List.mem_map.mp hg with ⟨row, hrowf, hrowg⟩
      have hrid : row = r := by
        rw [← hrowg] at hgr
        exact hgr
      subst hrid
      rcases List.mem_filter.mp hrowf with ⟨hrow, hempty⟩
      refine ⟨hrow, ?_⟩
      intro c hc hco
      have : c ∈ matchedColumns contents row :=
        (matchedColumns_mem contents row c).mpr ⟨hc, hco⟩
      rw [List.isEmpty_iff.mp hempty] at this
      cases this
    · rintro ⟨hrow, hnone⟩
      have hempty : matchedColumns contents r = [] := by
        rcases hm : matchedColumns contents r with _ | ⟨c, cs⟩
        · rfl
        · have hcmem : c ∈ matchedColumns contents r := by
            rw [hm]
            exact List.mem_cons_self c cs
          rcases (matchedColumns_mem contents r c).mp hcmem with ⟨h1, h2⟩
          exact absurd h2 (hnone c h1)
      refine ⟨{ row_id := r, column_id := none, severity := "high" }, ?_, rfl⟩
      refine List.mem_map.mpr ⟨r, ?_, rfl⟩
      exact List.mem_filter.mpr ⟨hrow, by simp [hempty]⟩
  · intro g hg
    rcases List.mem_map.mp hg with ⟨row, _, hrowg⟩
    rw [← hrowg]

/-- C2: with a sufficiency confidence below the configured threshold,
`execute_pipeline` invokes no step's agent-execution capability, persists
exactly one audit snapshot whose deterministic part is a trivial pass,
emits the audit-gate-failed and orchestrator-decision events (after the
start event, when emission succeeds), and returns normally with
`execution_successful = false` and the blocking gaps surfaced in the result
metadata. -/
theorem pipeline_gate_blocks (cfg : PipelineConfig) (audit_config : OrchAuditConfig)
    (agentExec : String → JValue → JValue) (emitOk : EmittedEvent → Bool)
    (input_data : PipelineInput)
    (hconf : (run_sufficiency_evaluation input_data
        audit_config.min_input_size_for_sufficiency
        audit_config.insufficient_markers).confidence_score <
      audit_config.min_confidence_to_proceed)
    (hemit : ∀ e, emitOk e = true) :
    (execute_pipeline cfg audit_config true true agentExec emitOk input_data).1.invoked =
      [] ∧
    (execute_pipeline cfg audit_config true true agentExec emitOk
        input_data).1.audit_writes =
      [gateFailAuditDoc audit_config
        (run_sufficiency_evaluation input_data
          audit_config.min_input_size_for_sufficiency
          audit_config.insufficient_markers)] ∧
    (execute_pipeline cfg audit_config true true agentExec emitOk input_data).1.events =
      [startedEvent, gateFailedEvent, stopDecisionEvent] ∧
    (execute_pipeline cfg audit_config true true agentExec emitOk input_data).2 =
      Except.ok
        { pipeline_name := cfg.name
          execution_successful := false
          agents := []
          blocking_gaps := some (run_sufficiency_evaluation input_data
              audit_config.min_input_size_for_sufficiency
              audit_config.insufficient_markers).blocking_gaps
          artifacts_manifest :=
            [{ artifact_type := "InfoSufficiencyAssessment"
               file := "artifacts/InfoSufficiencyAssessment.json"
               content_hash := compute_content_hash (sufficiencyContentJson
                   (run_sufficiency_evaluation input_data
                     audit_config.min_input_size_for_sufficiency
                     audit_config.insufficient_markers)) }] } := by
  simp [execute_pipeline, emit_collaboration_event, hemit, hconf]

/-- A one-step pipeline configuration used by concrete witnesses. -/
def witnessPipelineCfg : PipelineConfig :=
  { name := "plan_and_execute"
    agents := [{ name := "product_owner", inputs := ["pipeline_input"] }] }

/-- An audit configuration with the default policy values, used by concrete
witnesses. -/
def witnessAuditCfg : OrchAuditConfig :=
  { min_confidence_to_proceed := 3/5
    min_input_size_for_sufficiency := 120
    insufficient_markers := ["TBD", "TODO"]
    sufficiency_rubric := none }

/-- Witness for C2: a nine-character input against threshold 120 and a 3/5
confidence bar blocks the pipeline without invoking the configured agent. -/
theorem pipeline_gate_blocks_witness :
    (execute_pipeline witnessPipelineCfg witnessAuditCfg
      true true (fun _ _ => .obj []) (fun _ => true)
      { content := "too short", size := none }).1.invoked = [] := by
  refine (pipeline_gate_blocks _ _ _ _ _ ?_ (fun _ => rfl)).1
  have hm : foundMarkers "too short" ["TBD", "TODO"] = [] := by decide
  have hs : inputSize { content := "too short", size := none } < 120 := by decide
  simp [witnessAuditCfg, run_sufficiency_evaluation, hm, hs]
  norm_num

set_option maxHeartbeats 2000000 in
/-- C8: the outcome of `execute_pipeline` apart from the event log does not
depend on the emission oracle: any emission failure (the helper catches the
error and logs a warning) leaves the returned result, the invoked steps,
the persisted artifacts and the audit writes exactly as with a fully
succeeding emitter — emission failures never abort execution. -/
theorem emission_failures_never_abort (cfg : PipelineConfig)
    (audit_config : OrchAuditConfig) (hasStore : Bool)
    (agentExec : String → JValue → JValue) (f g : EmittedEvent → Bool)
    (input_data : PipelineInput) :
    (execute_pipeline cfg audit_config hasStore true agentExec f input_data).2 =
      (execute_pipeline cfg audit_config hasStore true agentExec g input_data).2 ∧
    (execute_pipeline cfg audit_config hasStore true agentExec f input_data).1.invoked =
      (execute_pipeline cfg audit_config hasStore true agentExec g input_data).1.invoked ∧
    (execute_pipeline cfg audit_config hasStore true agentExec f input_data).1.artifacts =
      (execute_pipeline cfg audit_config hasStore true agentExec g
        input_data).1.artifacts ∧
    (execute_pipeline cfg audit_config hasStore true agentExec f
        input_data).1.audit_writes =
      (execute_pipeline cfg audit_config hasStore true agentExec g
        input_data).1.audit_writes := by
  unfold execute_pipeline
  by_cases hc : (run_sufficiency_evaluation input_data
      audit_config.min_input_size_for_sufficiency
      audit_config.insufficient_markers).confidence_score <
      audit_config.min_confidence_to_proceed
  · rcases Bool.eq_false_or_eq_true hasStore with hS | hS <;> subst hS <;> simp [hc]
  · rcases Bool.eq_false_or_eq_true hasStore with hS | hS
    · subst hS
      simp only [hc, if_false, ite_false, Bool.false_eq_true]
      refine post_agent_loop_emitter_agnostic cfg audit_config _ true f g _ _ _
        ?_ ?_ ?_ ?_ ?_ ?_
      · exact (runAgentSteps_emitter_agnostic agentExec f g (pipelineInputJson input_data)
          cfg.agents _ true _ _ [] _ (by simp) (by simp) (by simp)).1
      · exact (runAgentSteps_emitter_agnostic agentExec f g (pipelineInputJson input_data)
          cfg.agents _ true _ _ [] _ (by simp) (by simp) (by simp)).2.1
      · exact (runAgentSteps_emitter_agnostic agentExec f g (pipelineInputJson input_data)
          cfg.agents _ true _ _ [] _ (by simp) (by simp) (by simp)).2.2.1
      · exact (runAgentSteps_emitter_agnostic agentExec f g (pipelineInputJson input_data)
          cfg.agents _ true _ _ [] _ (by simp) (by simp) (by simp)).2.2.2.1
      · exact (runAgentSteps_emitter_agnostic agentExec f g (pipelineInputJson input_data)
          cfg.agents _ true _ _ [] _ (by simp) (by simp) (by simp)).2.2.2.2.1
      · exact (runAgentSteps_emitter_agnostic agentExec f g (pipelineInputJson input_data)
          cfg.agents _ true _ _ [] _ (by simp) (by simp) (by simp)).2.2.2.2.2
    · subst hS
      simp only [hc, if_false, ite_false, ite_true, Bool.true_eq_false]
      refine post_agent_loop_emitter_agnostic cfg audit_config _ true f g _ _ _
        ?_ ?_ ?_ ?_ ?_ ?_
      · exact (runAgentSteps_emitter_agnostic agentExec f g (pipelineInputJson input_data)
          cfg.agents _ true _ _ [] _ (by simp) (by simp) (by simp)).1
      · exact (runAgentSteps_emitter_agnostic agentExec f g (pipelineInputJson input_data)
          cfg.agents _ true _ _ [] _ (by simp) (by simp) (by simp)).2.1
      · exact (runAgentSteps_emitter_agnostic agentExec f g (pipelineInputJson input_data)
          cfg.agents _ true _ _ [] _ (by simp) (by simp) (by simp)).2.2.1
      · exact (runAgentSteps_emitter_agnostic agentExec f g (pipelineInputJson input_data)
          cfg.agents _ true _ _ [] _ (by simp) (by simp) (by simp)).2.2.2.1
      · exact (runAgentSteps_emitter_agnostic agentExec f g (pipelineInputJson input_data)
          cfg.agents _ true _ _ [] _ (by simp) (by simp) (by simp)).2.2.2.2.1
      · exact (runAgentSteps_emitter_agnostic agentExec f g (pipelineInputJson input_data)
          cfg.agents _ true _ _ [] _ (by simp) (by simp) (by simp)).2.2.2.2.2

/-- C4: `write_audit_results` persists the audit summary document at
`audits/audit_results.json` under the run's directory and a second call for
the same run replaces the first (last write wins), exactly as
`write_metadata` does for `metadata.json`. -/
theorem write_audit_results_last_write_wins (st : ArtifactStoreState)
    (run_id : String) (r1 r2 : AuditDoc) (ts1 ts2 config_root : String)
    (input_file : Option String) (pipeline_name : String) (ok1 ok2 : Bool)
    (t1 t2 : ℚ) (m1 m2 : List ManifestEntry)
    (h : st.create_artifacts = true) :
    (write_audit_results st run_id r1).2 =
      some (get_run_directory st run_id ++ "/audits/audit_results.json") ∧
    fsRead ((write_audit_results st run_id r1).1).fs
        (get_run_directory st run_id ++ "/audits/audit_results.json") =
      some (.auditDoc r1) ∧
    fsRead ((write_audit_results (write_audit_results st run_id r1).1 run_id r2).1).fs
        (get_run_directory st run_id ++ "/audits/audit_results.json") =
      some (.auditDoc r2) ∧
    fsRead ((write_metadata (write_metadata st run_id ts1 config_root input_file
            pipeline_name ok1 t1 m1).1 run_id ts2 config_root input_file
            pipeline_name ok2 t2 m2).1).fs
        (get_run_directory st run_id ++ "/metadata.json") =
      some (.metaDoc
        { run_id := run_id, timestamp := ts2, config_root := config_root,
          input_file := input_file, pipeline_name := pipeline_name,
          execution_successful := ok2, total_execution_time := t2,
          artifacts_manifest := m2 }) := by
  refine ⟨?_, ?_, ?_, ?_⟩ <;>
    simp [write_audit_results, write_metadata, h, fsWrite, fsRead,
      get_run_directory, List.lookup]

/-- A concrete audit snapshot used by the C4 witness. -/
def witnessAuditDoc1 : AuditDoc :=
  { deterministic := trivialPassDet
    semantic := { confidence_score := 1, blocking_gaps := [], evidence_refs := [],
                  rubric_ref := none }
    sufficiency := { confidence_score := 1, blocking_gaps := [] }
    traceability_matrix_ref := none }

/-- A second, different audit snapshot used by the C4 witness. -/
def witnessAuditDoc2 : AuditDoc :=
  { witnessAuditDoc1 with traceability_matrix_ref := some "artifacts/TraceabilityMatrix.json" }

/-- Witness for C4: overwriting the audit results of run `r1` leaves the
second snapshot on disk. -/
theorem write_audit_results_last_write_wins_witness :
    fsRead ((write_audit_results
        (write_audit_results ⟨"runs", true, []⟩ "r1" witnessAuditDoc1).1 "r1"
        witnessAuditDoc2).1).fs
      (get_run_directory ⟨"runs", true, []⟩ "r1" ++ "/audits/audit_results.json") =
    some (.auditDoc witnessAuditDoc2) :=
  (write_audit_results_last_write_wins ⟨"runs", true, []⟩ "r1" witnessAuditDoc1
    witnessAuditDoc2 "t1" "t2" "cfg" none "p" true true 0 0 [] [] rfl).2.2.1

/-- C9: `apply_amendment` fails exactly when the base metadata lacks a
recorded original pipeline input or that input lacks a `content` key;
otherwise it returns the base pipeline input extended with an
`amended_context` block (corrected assumptions, tradeoffs and reason)
exactly when at least one amended assumption or amended tradeoff is
present, and the base input unchanged otherwise. -/
theorem apply_amendment_spec (base_metadata amendment : List (String × JValue))
    (pi : List (String × JValue)) (asl tsl : List JValue)
    (hpi : dictGetD base_metadata "pipeline_input" (.obj []) = .obj pi)
    (has : dictGetD amendment "amended_assumptions" (.arr []) = .arr asl)
    (hts : dictGetD amendment "amended_tradeoffs" (.arr []) = .arr tsl) :
    ((∃ msg, apply_amendment base_metadata amendment = .error msg) ↔
      (pi = [] ∨ pi.lookup "content" = none)) ∧
    (pi ≠ [] → (pi.lookup "content").isSome →
      apply_amendment base_metadata amendment =
        .ok (if asl.isEmpty && tsl.isEmpty then pi
             else dictSet pi "amended_context"
               (.obj [("amended_assumptions", .arr asl),
                      ("amended_tradeoffs", .arr tsl),
                      ("reason", dictGetD amendment "reason" .null)]))) := by
  have hform : apply_amendment base_metadata amendment =
      (if pi.isEmpty || (pi.lookup "content").isNone then
        .error "Base run metadata must contain pipeline_input for derived run replay."
      else if jTruthy (.arr asl) || jTruthy (.arr tsl) then
        .ok (dictSet pi "amended_context"
          (.obj [("amended_assumptions", .arr asl),
                 ("amended_tradeoffs", .arr tsl),
                 ("reason", dictGetD amendment "reason" .null)]))
      else .ok pi) := by
    unfold apply_amendment
    rw [hpi]
    simp only [has, hts]
  constructor
  · rw [hform]
    by_cases hcond : (pi.isEmpty || (pi.lookup "content").isNone) = true
    · rw [if_pos hcond]
      constructor
      · intro _
        rcases Bool.or_eq_true_iff.mp hcond with hemp | hnone
        · exact Or.inl (by simpa using hemp)
        · exact Or.inr (Option.isNone_iff_eq_none.mp hnone)
      · intro _
        exact ⟨_, rfl⟩
    · rw [if_neg hcond]
      constructor
      · rintro ⟨msg, hmsg⟩
        split_ifs at hmsg <;> cases hmsg
      · intro hc
        exfalso
        apply hcond
        rcases hc with hc | hc
        · simp [hc]
        · simp [hc]
  · intro hne hsome
    rw [hform]
    have hcond : (pi.isEmpty || (pi.lookup "content").isNone) = false := by
      rw [ne_nil_isEmpty_false hne, Option.isSome_iff_exists] at *
      rcases hsome with ⟨v, hv⟩
      simp [hv]
    rw [Bool.or_eq_false_iff] at hcond
    rw [if_neg (by simp [hcond.1, hcond.2])]
    simp only [jTruthy]
    by_cases hase : asl.isEmpty <;> by_cases htse : tsl.isEmpty <;>
      simp [hase, htse]

/-- Witness for C9: an amendment carrying one corrected assumption extends
the recorded pipeline input with an `amended_context` block. -/
theorem apply_amendment_spec_witness :
    apply_amendment [("pipeline_input", .obj [("content", .str "hello")])]
        [("base_run_id", .str "r0"), ("amended_assumptions", .arr [.str "a1"]),
         ("reason", .str "fix")] =
      .ok (dictSet [("content", .str "hello")] "amended_context"
        (.obj [("amended_assumptions", .arr [.str "a1"]),
               ("amended_tradeoffs", .arr []),
               ("reason", .str "fix")])) := by
  have h := (apply_amendment_spec
      [("pipeline_input", .obj [("content", .str "hello")])]
      [("base_run_id", .str "r0"), ("amended_assumptions", .arr [.str "a1"]),
       ("reason", .str "fix")]
      [("content", .str "hello")] [.str "a1"] []
      (by decide) (by decide) (by decide)).2 (by decide) (by decide)
  rw [h, if_neg (by decide)]
  rfl

/-- C7: reading the collaboration log back returns exactly the emitted
events in insertion order, round-tripping every field of every event
(including the timestamp string), and an absent events file reads as the
empty sequence. -/
theorem collaboration_log_round_trip (events : List CollaborationEvent) :
    read_all (events.foldl emitEventLog none) = some events ∧
    read_all none = some [] :=
  ⟨read_all_after_emits events, rfl⟩

end Spec2Code
